import Mathlib

/-!
Verification development for the injektor dependency-injection runtime.

The embedding models the Resolution Engine (`src/core/container.ts`, class
`Container`) and the Lifecycle Registry (`src/core/life-cycle.ts`).  JavaScript
object identity is modelled by allocation order: every `new target(...)` and
every fresh object produced by a factory draws the next natural number from an
allocation counter carried in the container state, so two instances are the
identical object exactly when their numbers coincide.  `Map`s are association
lists whose keys are unique (JS `Map` keys are unique); `Map.set` replaces in
place, `Map.delete` filters the key out, which agrees with `Map.delete` on
duplicate-free lists.  The resolution stack is a JS `Set`, i.e. an
insertion-ordered duplicate-free list.  Recursive resolution is bounded by
explicit fuel; `Outcome.noFuel` is a modelling artifact that never occurs for
sufficiently large fuel.  `setTimeout`-scheduled retries of the deferred
resolution path are modelled as running after the synchronous part of the
triggering `resolve` call has finished (which is when JS timers fire); the
state returned by `resolve` is the state after those scheduled retries have
completed, and the promise handed back to the caller is modelled by the
`deferredOk` / `deferredErr` outcomes carrying the value the promise
eventually settles with.
-/

namespace Injektor

/-- JS object identity: instances are numbered in allocation order. -/
abbrev Inst := Nat

/-- A DI token: a class constructor (identified by its name, which also indexes
its reflection metadata) or a string/symbol key. -/
inductive Token
  | cls (name : String)
  | str (name : String)
deriving DecidableEq, Repr

/-- The three lifecycle scopes (`LifeCycleOpt` in `src/types`). -/
inductive LifeCycleOpt
  | singleton
  | transient
  | request
deriving DecidableEq, Repr

/-- Semantics chosen for an opaque `useFactory` callback: either it allocates a
fresh object on every call (like the documented
`useFactory: () => new LoggerService()`), or it returns a fixed
already-existing object. -/
inductive FactoryFn
  | fresh
  | const (v : Inst)
deriving DecidableEq, Repr

/-- A provider registration (`Provider` in `src/types`): all strategy fields
are optional; `scope` defaults to singleton at use sites. -/
structure Provider where
  useClass : Option String := none
  useValue : Option Inst := none
  useFactory : Option FactoryFn := none
  scope : Option LifeCycleOpt := none
deriving DecidableEq, Repr

/-- A JS `Error`: only its message is observable to the container. -/
structure DIError where
  msg : String
deriving DecidableEq, Repr

/-- Record of a pending deferred resolution (interface `PendingResolution`). -/
structure PendingResolution where
  token : Token
  attempts : Nat
  lastError : DIError
  dependencies : List String
deriving DecidableEq, Repr

/-- Immutable reflection/decorator environment: `design:paramtypes` lists the
constructor dependency class names of each class, and the decorator registries
(`metadataRegistry`) plus the scope metadata written by `@Service`,
`@Controller` and `@Processor`. -/
structure Env where
  paramtypes : String → List String
  services : String → Bool
  serviceScopeMeta : String → Option LifeCycleOpt
  controllers : String → Bool
  processors : String → Bool
  processorScopeMeta : String → Option LifeCycleOpt
  configurations : String → Bool
  application : Option String

/-- Association-list lookup, i.e. `Map.get`. -/
def mapGet {κ α : Type} [DecidableEq κ] : List (κ × α) → κ → Option α
  | [], _ => none
  | (k', v) :: rest, k => if k' = k then some v else mapGet rest k

/-- `Map.set`: replace in place if the key is present, else append. -/
def mapSet {κ α : Type} [DecidableEq κ] : List (κ × α) → κ → α → List (κ × α)
  | [], k, v => [(k, v)]
  | (k', v') :: rest, k, v =>
      if k' = k then (k, v) :: rest else (k', v') :: mapSet rest k v

/-- `Map.delete`: on duplicate-free key lists this is exactly key removal. -/
def mapDelete {κ α : Type} [DecidableEq κ] : List (κ × α) → κ → List (κ × α)
  | [], _ => []
  | (k', v) :: rest, k =>
      if k' = k then mapDelete rest k else (k', v) :: mapDelete rest k

/-- `Set.add`: append if absent (JS `Set` preserves insertion order). -/
def setAdd (s : List Token) (t : Token) : List Token :=
  if t ∈ s then s else s ++ [t]

/-- `Set.delete`. -/
def setDelete (s : List Token) (t : Token) : List Token :=
  s.filter (fun x => x ≠ t)

/-- `isPrefixL pat l`: `pat` is a prefix of `l` (JS string matching helper). -/
def isPrefixL : List Char → List Char → Bool
  | [], _ => true
  | _ :: _, [] => false
  | a :: pat, b :: l => a == b && isPrefixL pat l

/-- `containsL pat l`: `pat` occurs as a contiguous sublist of `l`. -/
def containsL (pat : List Char) : List Char → Bool
  | [] => isPrefixL pat []
  | l@(_ :: rest) => isPrefixL pat l || containsL pat rest

/-- JS `String.prototype.includes`. -/
def strIncludes (s pat : String) : Bool :=
  containsL pat.data s.data

/-- The full state of a `Container` instance, plus the two freshness counters
that model object allocation and unique request-id generation. -/
structure ContainerState where
  providers : List (Token × Provider)
  singletons : List (Token × Inst)
  requestInstances : List (String × List (Token × Inst))
  pendingResolutions : List (Token × PendingResolution)
  resolutionStack : List Token
  enableDeferredResolution : Bool
  nextInst : Nat
  nextReqId : Nat
deriving DecidableEq, Repr

/-- A freshly constructed container (`new Container()`): deferred resolution
is enabled by default. -/
def emptyContainer : ContainerState :=
  { providers := []
    singletons := []
    requestInstances := []
    pendingResolutions := []
    resolutionStack := []
    enableDeferredResolution := true
    nextInst := 0
    nextReqId := 0 }

/-- Observable result of one `resolve` call.  `deferredOk`/`deferredErr` model
the `Promise` returned (cast to `T`) by the deferred-resolution path, carrying
what the promise eventually settles with. -/
inductive Outcome
  | ok (v : Inst)
  | err (e : DIError)
  | deferredOk (v : Inst)
  | deferredErr (e : DIError)
  | noFuel
deriving DecidableEq, Repr

/-- `Container.getTokenName`. -/
def getTokenName : Token → String
  | .cls n => n
  | .str s => s

/-- `Container.extractDependencies`: `design:paramtypes` for classes, `[]` for
any other token. -/
def extractDependencies (E : Env) : Token → List String
  | .cls n => E.paramtypes n
  | .str _ => []

/-- `Container.isInitializationError`: the initialization-order heuristic over
the error message. -/
def isInitializationError (e : DIError) : Bool :=
  strIncludes e.msg "before initialization" ||
  strIncludes e.msg "is not defined" ||
  strIncludes e.msg "Cannot access" ||
  strIncludes e.msg "ReferenceError"

/-- `getServiceScope` (decorator metadata `service:scope`, default singleton). -/
def getServiceScope (E : Env) (name : String) : LifeCycleOpt :=
  (E.serviceScopeMeta name).getD .singleton

/-- `getProcessorScope` (metadata `processor:scope`, default singleton). -/
def getProcessorScope (E : Env) (name : String) : LifeCycleOpt :=
  (E.processorScopeMeta name).getD .singleton

/-- `Container.register`: insert/overwrite the provider and clear any pending
deferred resolution for the token. -/
def register (st : ContainerState) (token : Token) (provider : Provider) :
    ContainerState :=
  let st₁ := { st with providers := mapSet st.providers token provider }
  if (mapGet st₁.pendingResolutions token).isSome then
    { st₁ with pendingResolutions := mapDelete st₁.pendingResolutions token }
  else
    st₁

/-- `Container.tryAutoRegister`: register a class token from its decorator
category, in the source's order of checks.  Returns whether it registered. -/
def tryAutoRegister (E : Env) (st : ContainerState) (name : String) :
    ContainerState × Bool :=
  let token := Token.cls name
  if E.services name then
    (register st token { useClass := some name, scope := some (getServiceScope E name) }, true)
  else if E.controllers name then
    (register st token
      { useClass := some name
        scope := some ((E.serviceScopeMeta name).getD .singleton) }, true)
  else if E.processors name then
    (register st token { useClass := some name, scope := some (getProcessorScope E name) }, true)
  else if E.configurations name then
    (register st token { useClass := some name, scope := some .singleton }, true)
  else if E.application = some name then
    (register st token { useClass := some name, scope := some .singleton }, true)
  else
    (st, false)

/-- The circular-dependency error message: the current resolution stack joined
by arrows, then the re-encountered token. -/
def circularError (stack : List Token) (token : Token) : DIError :=
  ⟨"Dependência circular detectada: " ++
    String.intercalate " -> " (stack.map getTokenName) ++ " -> " ++
    getTokenName token⟩

/-- `Container.generateDependencyErrorDetails`. -/
def generateDependencyErrorDetails (E : Env) (st : ContainerState) :
    Token → String
  | .str s => "- Token \x27" ++ s ++ "\x27 não é uma classe construtora"
  | .cls name =>
    let d1 :=
      if E.services name then
        "- Classe " ++ name ++ " tem decorator @Service mas não foi registrada"
      else if E.controllers name then
        "- Classe " ++ name ++ " tem decorator @Controller mas não foi registrada"
      else if E.processors name then
        "- Classe " ++ name ++ " tem decorator @Processor mas não foi registrada"
      else if E.configurations name then
        "- Classe " ++ name ++ " tem decorator @Configuration mas não foi registrada"
      else if E.application = some name then
        "- Classe " ++ name ++ " tem decorator @Application mas não foi registrada"
      else
        "- Classe " ++ name ++
          " não possui decorators reconhecidos (@Service, @Controller, @Processor, @Configuration)"
    let params := E.paramtypes name
    let d2 :=
      if params.length > 0 then
        ("- Classe possui " ++ toString params.length ++
          " dependência(s) no construtor:") ::
        (params.enum.map (fun ip =>
          "  " ++ toString (ip.1 + 1) ++ ". " ++ ip.2 ++ " " ++
            (if (mapGet st.providers (Token.cls ip.2)).isSome then
              "✅ (registrada)" else "❌ (não registrada)")))
      else
        ["- Classe não possui dependências no construtor"]
    String.intercalate "\n" (d1 :: d2)

/-- The unresolved-provider error thrown by `resolveInternal` when no provider
is found and auto-registration does not apply. -/
def unresolvedError (E : Env) (st : ContainerState) (token : Token) : DIError :=
  let tokenName := getTokenName token
  let errorDetails := generateDependencyErrorDetails E st token
  ⟨"Não foi possível resolver a dependência: " ++ tokenName ++ "\n\n" ++
    "Possíveis soluções:\n" ++
    "1. Registre a dependência manualmente no container:\n" ++
    "   container.register(" ++ tokenName ++ ", \x7b useClass: " ++ tokenName ++
      ", scope: \x27singleton\x27 \x7d)\n\n" ++
    "2. Para classes, adicione um decorator apropriado:\n" ++
    "   @Service() // para serviços de negócio\n" ++
    "   @Controller() // para controladores HTTP\n" ++
    "   @Processor() // para processadores\n" ++
    "   @Configuration // para configurações\n\n" ++
    "3. Execute o scanner para registrar automaticamente os componentes:\n" ++
    "   await scanAndRegister()\n\n" ++
    "Detalhes:\n" ++ errorDetails⟩

/-- The error thrown for a provider specifying neither value, factory nor
class. -/
def noClassOrFactoryError (token : Token) : DIError :=
  ⟨"Provider for token " ++ getTokenName token ++
    " does not specify a class or factory."⟩

/-- The fatal error thrown once a token has accumulated 3 failed deferred
attempts; it wraps the stored original error message. -/
def deferredExhaustedError (tokenName : String) (lastError : DIError) : DIError :=
  ⟨"Não foi possível resolver " ++ tokenName ++ " após múltiplas tentativas.\n" ++
    "Erro original: " ++ lastError.msg ++ "\n\n" ++
    "Isso geralmente indica:\n" ++
    "1. Dependência circular não detectada\n" ++
    "2. Classe não está sendo exportada corretamente\n" ++
    "3. Problema na ordem de importação dos módulos\n\n" ++
    "Soluções:\n" ++
    "- Verifique se todas as classes estão sendo exportadas\n" ++
    "- Considere usar injeção de dependência baseada em tokens/strings\n" ++
    "- Reorganize a ordem das declarações de classe no arquivo"⟩

/-- The string of a generated request id.  `generateRequestId` combines a
timestamp and a random UUID fragment; uniqueness is modelled by the
`nextReqId` counter. -/
def mkReqId (n : Nat) : String :=
  "req_" ++ toString n

/-- Draw a fresh request id (models `generateRequestId`). -/
def generateRequestId (st : ContainerState) : String × ContainerState :=
  (mkReqId st.nextReqId, { st with nextReqId := st.nextReqId + 1 })

/-- Result of the synchronous part of `handleDeferredResolution`: either the
fatal after-3-attempts throw, or the pending record was (re)recorded and a
retry promise was created, capturing the previous attempt count. -/
inductive DeferredStep
  | fatal (e : DIError)
  | promise (capturedAttempts : Option Nat)
deriving DecidableEq, Repr

/-- The synchronous part of `Container.handleDeferredResolution`: check the
attempt budget, then record the pending resolution with one more attempt.  The
timer-driven retries of the created promise are modelled separately (they run
after the `finally` of `resolve` has popped the stack). -/
def handleDeferredSync (E : Env) (st : ContainerState) (token : Token)
    (error : DIError) : ContainerState × DeferredStep :=
  let tokenName := getTokenName token
  let pending := mapGet st.pendingResolutions token
  match pending with
  | some p =>
    if p.attempts ≥ 3 then
      (st, .fatal (deferredExhaustedError tokenName p.lastError))
    else
      let dependencies := extractDependencies E token
      let rec' := PendingResolution.mk token (p.attempts + 1) error dependencies
      ({ st with pendingResolutions := mapSet st.pendingResolutions token rec' },
        .promise (some p.attempts))
  | none =>
    let dependencies := extractDependencies E token
    let rec' := PendingResolution.mk token 1 error dependencies
    ({ st with pendingResolutions := mapSet st.pendingResolutions token rec' },
      .promise none)

mutual

/-- `Container.resolve`: circular-dependency check against the resolution
stack, push, delegate to `resolveInternal`, route initialization-order errors
to the deferred machinery when enabled, and pop the stack on every exit path. -/
def resolve (E : Env) : Nat → ContainerState → Token → Option String →
    ContainerState × Outcome
  | 0, st, _, _ => (st, .noFuel)
  | fuel + 1, st, token, requestId =>
    if token ∈ st.resolutionStack then
      (st, .err (circularError st.resolutionStack token))
    else
      let st₁ := { st with resolutionStack := setAdd st.resolutionStack token }
      let (st₂, r) := resolveInternal E fuel st₁ token requestId
      match r with
      | .err e =>
        if st₂.enableDeferredResolution && isInitializationError e then
          let (st₃, step) := handleDeferredSync E st₂ token e
          match step with
          | .fatal fe =>
            ({ st₃ with resolutionStack := setDelete st₃.resolutionStack token },
              .err fe)
          | .promise captured =>
            -- the `finally` pops the stack before the setTimeout callbacks run
            let st₄ :=
              { st₃ with resolutionStack := setDelete st₃.resolutionStack token }
            runDeferredRetries E fuel st₄ token requestId captured
        else
          ({ st₂ with resolutionStack := setDelete st₂.resolutionStack token },
            .err e)
      | r =>
        ({ st₂ with resolutionStack := setDelete st₂.resolutionStack token }, r)

/-- The timer-driven body of the promise created by
`handleDeferredResolution`: retry `resolveInternal` (clearing the pending
record on success); on failure retry once more unless the captured pending
record had already accumulated 2 attempts, in which case reject at once. -/
def runDeferredRetries (E : Env) : Nat → ContainerState → Token →
    Option String → Option Nat → ContainerState × Outcome
  | 0, st, _, _, _ => (st, .noFuel)
  | fuel + 1, st, token, requestId, captured =>
    let (st₁, r₁) := resolveInternal E fuel st token requestId
    match r₁ with
    | .ok v =>
      ({ st₁ with pendingResolutions := mapDelete st₁.pendingResolutions token },
        .deferredOk v)
    | .noFuel => (st₁, .noFuel)
    | .err e₁ =>
      if (captured.getD 0) ≥ 2 then
        (st₁, .deferredErr e₁)
      else
        let (st₂, r₂) := resolveInternal E fuel st₁ token requestId
        match r₂ with
        | .ok v =>
          ({ st₂ with
              pendingResolutions := mapDelete st₂.pendingResolutions token },
            .deferredOk v)
        | .err e₂ => (st₂, .deferredErr e₂)
        | _ => (st₂, .noFuel)
    | _ => (st₁, .noFuel)

/-- `Container.resolveInternal`: provider lookup (with decorator-based
auto-registration for class tokens), then dispatch by strategy — `useValue`
first, then `useFactory`, then `useClass` with its scope. -/
def resolveInternal (E : Env) : Nat → ContainerState → Token → Option String →
    ContainerState × Outcome
  | 0, st, _, _ => (st, .noFuel)
  | fuel + 1, st, token, requestId =>
    match mapGet st.providers token with
    | none =>
      match token with
      | .cls name =>
        match tryAutoRegister E st name with
        | (st₁, true) => resolveInternal E fuel st₁ token requestId
        | (st₁, false) => (st₁, .err (unresolvedError E st₁ token))
      | .str _ => (st, .err (unresolvedError E st token))
    | some provider =>
      match provider.useValue with
      | some v => (st, .ok v)
      | none =>
        match provider.useFactory with
        | some .fresh =>
          ({ st with nextInst := st.nextInst + 1 }, .ok st.nextInst)
        | some (.const v) => (st, .ok v)
        | none =>
          match provider.useClass with
          | none => (st, .err (noClassOrFactoryError token))
          | some target =>
            match provider.scope.getD .singleton with
            | .singleton => resolveSingleton E fuel st token target
            | .transient => resolveTransient E fuel st target requestId
            | .request =>
              match requestId with
              | some rid => resolveRequest E fuel st token target rid
              | none =>
                let (rid, st₁) := generateRequestId st
                resolveRequest E fuel st₁ token target rid

/-- `Container.resolveSingleton`: cache hit by token, else construct (note:
the source does not pass the request id on to `createInstance` here) and
cache. -/
def resolveSingleton (E : Env) : Nat → ContainerState → Token → String →
    ContainerState × Outcome
  | 0, st, _, _ => (st, .noFuel)
  | fuel + 1, st, token, target =>
    match mapGet st.singletons token with
    | some v => (st, .ok v)
    | none =>
      let (st₁, r) := createInstance E fuel st target none
      match r with
      | .ok v =>
        ({ st₁ with singletons := mapSet st₁.singletons token v }, .ok v)
      | r => (st₁, r)

/-- `Container.resolveTransient`: always construct a new instance. -/
def resolveTransient (E : Env) : Nat → ContainerState → String →
    Option String → ContainerState × Outcome
  | 0, st, _, _ => (st, .noFuel)
  | fuel + 1, st, target, requestId => createInstance E fuel st target requestId

/-- `Container.resolveRequest`: get or create the request's instance map,
cache hit by token within it, else construct and store under
`(requestId, token)`. -/
def resolveRequest (E : Env) : Nat → ContainerState → Token → String →
    String → ContainerState × Outcome
  | 0, st, _, _, _ => (st, .noFuel)
  | fuel + 1, st, token, target, requestId =>
    let st₁ :=
      match mapGet st.requestInstances requestId with
      | some _ => st
      | none =>
        { st with requestInstances := mapSet st.requestInstances requestId [] }
    let requestMap := (mapGet st₁.requestInstances requestId).getD []
    match mapGet requestMap token with
    | some v => (st₁, .ok v)
    | none =>
      let (st₂, r) := createInstance E fuel st₁ target (some requestId)
      match r with
      | .ok v =>
        let m := (mapGet st₂.requestInstances requestId).getD []
        ({ st₂ with
            requestInstances := mapSet st₂.requestInstances requestId
              (mapSet m token v) },
          .ok v)
      | r => (st₂, r)

/-- `Container.createInstance`: resolve each `design:paramtypes` dependency
left to right through `resolve` (propagating the request id), then allocate
the constructed object.  A dependency whose `resolve` hands back a deferred
promise is silently injected as that promise, exactly as in the source. -/
def createInstance (E : Env) : Nat → ContainerState → String →
    Option String → ContainerState × Outcome
  | 0, st, _, _ => (st, .noFuel)
  | fuel + 1, st, target, requestId =>
    let (st₁, r) := resolveDeps E fuel st (E.paramtypes target) requestId
    match r with
    | .ok _ => ({ st₁ with nextInst := st₁.nextInst + 1 }, .ok st₁.nextInst)
    | r => (st₁, r)

/-- Resolve a dependency list left to right; a thrown error aborts the map,
while deferred promises are passed through as argument values. -/
def resolveDeps (E : Env) : Nat → ContainerState → List String →
    Option String → ContainerState × Outcome
  | 0, st, _, _ => (st, .noFuel)
  | _ + 1, st, [], _ => (st, .ok 0)
  | fuel + 1, st, dep :: rest, requestId =>
    let (st₁, r) := resolve E fuel st (Token.cls dep) requestId
    match r with
    | .ok _ => resolveDeps E fuel st₁ rest requestId
    | .deferredOk _ => resolveDeps E fuel st₁ rest requestId
    | .deferredErr _ => resolveDeps E fuel st₁ rest requestId
    | .err e => (st₁, .err e)
    | .noFuel => (st₁, .noFuel)

end

/-- `Container.clearRequestInstances`. -/
def clearRequestInstances (st : ContainerState) (requestId : String) :
    ContainerState :=
  { st with requestInstances := mapDelete st.requestInstances requestId }

/-- `Container.getStats`. -/
structure Stats where
  providers : Nat
  singletons : Nat
  activeRequests : Nat
  pendingResolutions : Nat
deriving DecidableEq, Repr

/-- `Container.getStats`: sizes of the four tables. -/
def getStats (st : ContainerState) : Stats :=
  { providers := st.providers.length
    singletons := st.singletons.length
    activeRequests := st.requestInstances.length
    pendingResolutions := st.pendingResolutions.length }

/-- One entry of `Container.getPendingResolutions`. -/
structure PendingInfo where
  token : String
  attempts : Nat
  lastError : String
  dependencies : List String
deriving DecidableEq, Repr

/-- `Container.getPendingResolutions`: render every pending record. -/
def getPendingResolutions (st : ContainerState) : List PendingInfo :=
  st.pendingResolutions.map (fun kp =>
    { token := getTokenName kp.2.token
      attempts := kp.2.attempts
      lastError := kp.2.lastError.msg
      dependencies := kp.2.dependencies })

/-- `Container.setDeferredResolution`. -/
def setDeferredResolution (st : ContainerState) (enabled : Bool) :
    ContainerState :=
  { st with enableDeferredResolution := enabled }

/-- `Container.reset`: clear the provider table and both instance caches. -/
def reset (st : ContainerState) : ContainerState :=
  { st with providers := [], singletons := [], requestInstances := [] }

/-!
Lifecycle Registry (`src/core/life-cycle.ts`).  Hooks are opaque callbacks; we
model each hook an instance may expose by how its invocation behaves: it
returns normally, throws synchronously, or returns a promise that rejects.
Hook invocations and the logging of caught hook errors are recorded in an
event trace.
-/

/-- Behaviour of one lifecycle hook when invoked. -/
inductive HookBehavior
  | ok
  | throwSync
  | rejectAsync
deriving DecidableEq, Repr

/-- An instance as seen by the lifecycle registry: its identity and which of
the four optional hooks it exposes, each with its invocation behaviour. -/
structure InstanceSpec where
  id : Inst
  onInit : Option HookBehavior := none
  onDestroy : Option HookBehavior := none
  onRequestStart : Option HookBehavior := none
  onRequestEnd : Option HookBehavior := none
deriving DecidableEq, Repr

/-- A singleton/transient cleanup record: the instance and its bound
`onDestroy`. -/
structure SRef where
  instId : Inst
  onDestroyB : HookBehavior
deriving DecidableEq, Repr

/-- A request-bucket cleanup record: additionally carries the bound
`onRequestEnd`; `none` models the `() => {}` fallback installed when the
instance has no such hook. -/
structure RRef where
  instId : Inst
  onDestroyB : HookBehavior
  onRequestEndB : Option HookBehavior
deriving DecidableEq, Repr

/-- The module-level `lifecycleRegistry`. -/
structure LCState where
  singleton : List SRef
  transient : List SRef
  request : List (String × List RRef)
deriving DecidableEq, Repr

/-- The empty lifecycle registry. -/
def emptyLC : LCState := { singleton := [], transient := [], request := [] }

/-- Observable lifecycle events: hook invocations on instances, and the
logging of a caught hook error.  Destroy/error events are tagged with the
registry bucket the cleanup was driven from. -/
inductive Event
  | initCalled (id : Inst)
  | initErrorLogged (id : Inst)
  | reqStartCalled (id : Inst) (rid : String)
  | reqStartErrorLogged (id : Inst)
  | reqEndCalled (id : Inst)
  | destroyCalled (id : Inst) (scope : LifeCycleOpt)
  | cleanupErrorLogged (id : Inst) (scope : LifeCycleOpt)
deriving DecidableEq, Repr

/-- JS truthiness of the optional `requestId` argument (an empty string is
falsy). -/
def ridTruthy : Option String → Bool
  | some r => r ≠ ""
  | none => false

/-- `registerForCleanup`: store the bound `onDestroy` in the bucket selected
by the scope; request-scoped records also capture the bound `onRequestEnd`
(or a no-op when absent). -/
def registerForCleanup (st : LCState) (inst : InstanceSpec)
    (scope : LifeCycleOpt) (requestId : Option String) (d : HookBehavior) :
    LCState :=
  match scope with
  | .singleton => { st with singleton := st.singleton ++ [⟨inst.id, d⟩] }
  | .transient => { st with transient := st.transient ++ [⟨inst.id, d⟩] }
  | .request =>
    match requestId with
    | some rid =>
      if rid ≠ "" then
        let refs := (mapGet st.request rid).getD []
        let refs' := refs ++ [⟨inst.id, d, inst.onRequestEnd⟩]
        { st with request := mapSet st.request rid refs' }
      else st
    | none => st

/-- `registerForRequestCleanup`: ensure the request bucket exists, then update
the `onRequestEnd` of an existing record for this instance, if any. -/
def registerForRequestCleanup (st : LCState) (inst : InstanceSpec)
    (rid : String) : LCState :=
  let st₁ :=
    match mapGet st.request rid with
    | some _ => st
    | none => { st with request := mapSet st.request rid [] }
  let refs := (mapGet st₁.request rid).getD []
  match refs.findIdx? (fun r => r.instId == inst.id) with
  | some i =>
    match refs[i]? with
    | some r₀ =>
      let refs' := refs.set i { r₀ with onRequestEndB := inst.onRequestEnd }
      { st₁ with request := mapSet st₁.request rid refs' }
    | none => st₁
  | none => st₁

/-- `applyLifecycle`: fire `onInit` (and `onRequestStart` for request scope),
logging only *asynchronous* rejections — a synchronous throw propagates —
then register the instance for cleanup when it has the corresponding hooks.
The Boolean result records whether an exception propagated to the caller. -/
def applyLifecycle (st : LCState) (inst : InstanceSpec)
    (scope : LifeCycleOpt) (requestId : Option String) :
    LCState × List Event × Bool :=
  let initStep : List Event × Bool :=
    match inst.onInit with
    | none => ([], false)
    | some .ok => ([.initCalled inst.id], false)
    | some .throwSync => ([.initCalled inst.id], true)
    | some .rejectAsync =>
      ([.initCalled inst.id, .initErrorLogged inst.id], false)
  if initStep.2 then
    (st, initStep.1, true)
  else
    let startStep : List Event × Bool :=
      match scope, requestId, inst.onRequestStart with
      | .request, some rid, some b =>
        if rid ≠ "" then
          match b with
          | .ok => ([.reqStartCalled inst.id rid], false)
          | .throwSync => ([.reqStartCalled inst.id rid], true)
          | .rejectAsync =>
            ([.reqStartCalled inst.id rid, .reqStartErrorLogged inst.id], false)
        else ([], false)
      | _, _, _ => ([], false)
    if startStep.2 then
      (st, initStep.1 ++ startStep.1, true)
    else
      let st₁ :=
        match inst.onDestroy with
        | some d => registerForCleanup st inst scope requestId d
        | none => st
      let st₂ :=
        match scope, requestId, inst.onRequestEnd with
        | .request, some rid, some _ =>
          if rid ≠ "" then registerForRequestCleanup st₁ inst rid else st₁
        | _, _, _ => st₁
      (st₂, initStep.1 ++ startStep.1, false)

/-- Cleanup of one request record: `onRequestEnd` first (a no-op fallback
invokes nothing), then `onDestroy`; any error is caught and logged, ending
that record's cleanup only. -/
def cleanupRef (r : RRef) : List Event :=
  match r.onRequestEndB with
  | some .ok =>
    [.reqEndCalled r.instId, .destroyCalled r.instId .request] ++
      (match r.onDestroyB with
        | .ok => []
        | _ => [.cleanupErrorLogged r.instId .request])
  | some _ => [.reqEndCalled r.instId, .cleanupErrorLogged r.instId .request]
  | none =>
    [.destroyCalled r.instId .request] ++
      (match r.onDestroyB with
        | .ok => []
        | _ => [.cleanupErrorLogged r.instId .request])

/-- The per-record traces of a request bucket, concatenated in order. -/
def cleanupRefs : List RRef → List Event
  | [] => []
  | r :: rest => cleanupRef r ++ cleanupRefs rest

/-- `cleanupRequest`: run every record of the request's bucket (errors per
record are caught), then delete the bucket; absent bucket is a no-op. -/
def cleanupRequest (st : LCState) (rid : String) : LCState × List Event :=
  match mapGet st.request rid with
  | none => (st, [])
  | some refs =>
    ({ st with request := mapDelete st.request rid }, cleanupRefs refs)

/-- Cleanup trace of a singleton/transient bucket entry, tagged with the
bucket's scope. -/
def cleanupSRef (scope : LifeCycleOpt) (r : SRef) : List Event :=
  [.destroyCalled r.instId scope] ++
    (match r.onDestroyB with
      | .ok => []
      | _ => [.cleanupErrorLogged r.instId scope])

/-- The per-record traces of a singleton/transient bucket, concatenated. -/
def cleanupSRefs (scope : LifeCycleOpt) : List SRef → List Event
  | [] => []
  | r :: rest => cleanupSRef scope r ++ cleanupSRefs scope rest

/-- `cleanupTransient`: destroy every transient record (errors caught), then
clear the transient bucket. -/
def cleanupTransient (st : LCState) : LCState × List Event :=
  ({ st with transient := [] }, cleanupSRefs .transient st.transient)

/-- The loop of `shutdown` over the active request ids. -/
def cleanupRequests (st : LCState) : List String → LCState × List Event
  | [] => (st, [])
  | rid :: rest =>
    let (st₁, ev₁) := cleanupRequest st rid
    let (st₂, ev₂) := cleanupRequests st₁ rest
    (st₂, ev₁ ++ ev₂)

/-- `shutdown`: clean every active request bucket, then all transients, then
all singletons, clearing the singleton bucket last. -/
def shutdown (st : LCState) : LCState × List Event :=
  let (st₁, evR) := cleanupRequests st (st.request.map (fun kv => kv.1))
  let (st₂, evT) := cleanupTransient st₁
  let evS := cleanupSRefs .singleton st₂.singleton
  ({ st₂ with singleton := [] }, evR ++ evT ++ evS)

/-- `getLifecycleStats`. -/
structure LCStats where
  singletons : Nat
  transients : Nat
  activeRequests : Nat
  requestInstances : Nat
deriving DecidableEq, Repr

/-- `getLifecycleStats`: counts per bucket and the total number of
request-scoped records. -/
def getLifecycleStats (st : LCState) : LCStats :=
  { singletons := st.singleton.length
    transients := st.transient.length
    activeRequests := st.request.length
    requestInstances := (st.request.map (fun kv => kv.2.length)).sum }

/-- The registry bucket a teardown event was driven from: destroy and
error-log events carry their bucket tag, `onRequestEnd` invocations are
request-phase by nature. -/
def eventScopeTag : Event → Option LifeCycleOpt
  | .destroyCalled _ sc => some sc
  | .cleanupErrorLogged _ sc => some sc
  | .reqEndCalled _ => some .request
  | _ => none

/-! ### Concrete environments and containers used in scenario claims -/

/-- Outcome discriminator: a synchronously thrown error. -/
def Outcome.isErr : Outcome → Bool
  | .err _ => true
  | _ => false

/-- Outcome discriminator: a deferred promise that eventually rejects. -/
def Outcome.isDeferredErr : Outcome → Bool
  | .deferredErr _ => true
  | _ => false

/-- Outcome discriminator: a synchronously returned instance. -/
def Outcome.isOk : Outcome → Bool
  | .ok _ => true
  | _ => false

/-- An environment with no decorated classes and no constructor
dependencies. -/
def trivEnv : Env :=
  { paramtypes := fun _ => []
    services := fun _ => false
    serviceScopeMeta := fun _ => none
    controllers := fun _ => false
    processors := fun _ => false
    processorScopeMeta := fun _ => none
    configurations := fun _ => false
    application := none }

/-- Environment of the circular scenario: `ServiceA` depends on `ServiceB`
and vice versa; `ServiceC` has no dependencies. -/
def cdEnv : Env :=
  { trivEnv with
    paramtypes := fun n =>
      if n = "ServiceA" then ["ServiceB"]
      else if n = "ServiceB" then ["ServiceA"]
      else [] }

/-- Container of the circular scenario: `ServiceA`, `ServiceB`, `ServiceC`
registered as singleton class providers. -/
def cdState : ContainerState :=
  register (register (register emptyContainer
    (Token.cls "ServiceA") { useClass := some "ServiceA", scope := some .singleton })
    (Token.cls "ServiceB") { useClass := some "ServiceB", scope := some .singleton })
    (Token.cls "ServiceC") { useClass := some "ServiceC", scope := some .singleton }

/-- The resolution of `ServiceA` in the circular scenario. -/
def cdCall : ContainerState × Outcome :=
  resolve cdEnv 20 cdState (Token.cls "ServiceA") none

/-- A string token whose name makes the unresolved-provider message match the
initialization-order heuristic. -/
def c3Tok : Token := Token.str "OopsService is not defined"

/-- First through fourth resolutions of the unresolvable token under deferred
resolution. -/
def c3Call1 : ContainerState × Outcome := resolve trivEnv 20 emptyContainer c3Tok none

/-- Second resolution of the unresolvable token. -/
def c3Call2 : ContainerState × Outcome := resolve trivEnv 20 c3Call1.1 c3Tok none

/-- Third resolution of the unresolvable token. -/
def c3Call3 : ContainerState × Outcome := resolve trivEnv 20 c3Call2.1 c3Tok none

/-- Fourth resolution of the unresolvable token. -/
def c3Call4 : ContainerState × Outcome := resolve trivEnv 20 c3Call3.1 c3Tok none

/-- A container with a factory provider registered under singleton scope. -/
def c1State : ContainerState :=
  register emptyContainer (Token.str "LoggerFactory")
    { useFactory := some .fresh, scope := some .singleton }

/-- The request-bucket keys, in insertion order. -/
def reqKeys (st : ContainerState) : List String :=
  st.requestInstances.map (fun kv => kv.1)

/-- All instance identities stored in the caches were allocated before the
current allocation counter. -/
def IdsB (st : ContainerState) : Prop :=
  (∀ kv ∈ st.singletons, kv.2 < st.nextInst) ∧
  (∀ rb ∈ st.requestInstances, ∀ kv ∈ rb.2, kv.2 < st.nextInst)

/-- State evolution invariant of one resolution step: existing providers are
never overwritten, the allocation counters only grow, cache boundedness is
preserved, the resolution stack and the deferred flag are restored, and
request buckets are only ever appended. -/
structure Pres (st st' : ContainerState) : Prop where
  providers : ∀ k v, mapGet st.providers k = some v → mapGet st'.providers k = some v
  instMono : st.nextInst ≤ st'.nextInst
  reqIdMono : st.nextReqId ≤ st'.nextReqId
  bounded : IdsB st → IdsB st'
  stack : st'.resolutionStack = st.resolutionStack
  flag : st'.enableDeferredResolution = st.enableDeferredResolution
  keys : ∃ newKeys, reqKeys st' = reqKeys st ++ newKeys

instance IdsB_dec (st : ContainerState) : Decidable (IdsB st) := by
  unfold IdsB
  infer_instance

/-- A container with one request-scoped class provider. -/
def c4State : ContainerState :=
  register emptyContainer (Token.cls "SessionService")
    { useClass := some "SessionService", scope := some .request }

/-- Environment of the nested-request scenario: a request-scoped service
depending on a singleton that itself depends on a request-scoped service. -/
def c10Env : Env :=
  { trivEnv with
    paramtypes := fun n =>
      if n = "ManagerService" then ["AuthService"]
      else if n = "AuthService" then ["TokenService"]
      else [] }

/-- Container of the nested-request scenario: `ManagerService` (request) →
`AuthService` (singleton) → `TokenService` (request). -/
def c10State : ContainerState :=
  register (register (register emptyContainer
    (Token.cls "ManagerService") { useClass := some "ManagerService", scope := some .request })
    (Token.cls "AuthService") { useClass := some "AuthService", scope := some .singleton })
    (Token.cls "TokenService") { useClass := some "TokenService", scope := some .request }

/-! ### Association-list lemmas -/

theorem mapGet_mapSet_self {κ α : Type} [DecidableEq κ]
    (m : List (κ × α)) (k : κ) (v : α) : mapGet (mapSet m k v) k = some v := by
  induction m with
  | nil => simp [mapSet, mapGet]
  | cons kv rest ih =>
    by_cases h : kv.1 = k
    · obtain ⟨k', v'⟩ := kv
      simp only at h
      simp [mapSet, h, mapGet]
    · obtain ⟨k', v'⟩ := kv
      simp only at h
      simp [mapSet, h, mapGet, ih]

theorem mapGet_mapSet_ne {κ α : Type} [DecidableEq κ]
    (m : List (κ × α)) (k k' : κ) (v : α) (h : k' ≠ k) :
    mapGet (mapSet m k v) k' = mapGet m k' := by
  have hkk : ¬(k = k') := fun he => h he.symm
  induction m with
  | nil => simp only [mapSet, mapGet, if_neg hkk]
  | cons kv rest ih =>
    obtain ⟨a, b⟩ := kv
    by_cases hk : a = k
    · subst hk
      simp only [mapSet, if_pos rfl, mapGet, if_neg hkk]
    · by_cases ha : a = k'
      · simp only [mapSet, if_neg hk, mapGet, if_pos ha]
      · simp only [mapSet, if_neg hk, mapGet, if_neg ha, ih]

theorem mapGet_mapDelete_self {κ α : Type} [DecidableEq κ]
    (m : List (κ × α)) (k : κ) : mapGet (mapDelete m k) k = none := by
  induction m with
  | nil => simp [mapDelete, mapGet]
  | cons kv rest ih =>
    obtain ⟨a, b⟩ := kv
    by_cases h : a = k
    · simpa only [mapDelete, if_pos h] using ih
    · simpa only [mapDelete, if_neg h, mapGet, if_neg h] using ih

theorem mapGet_mapDelete_ne {κ α : Type} [DecidableEq κ]
    (m : List (κ × α)) (k k' : κ) (h : k' ≠ k) :
    mapGet (mapDelete m k) k' = mapGet m k' := by
  induction m with
  | nil => simp [mapDelete, mapGet]
  | cons kv rest ih =>
    obtain ⟨a, b⟩ := kv
    by_cases ha : a = k
    · have ha' : ¬(a = k') := fun he => h (he.symm.trans ha)
      simp only [mapDelete, if_pos ha, mapGet, if_neg ha', ih]
    · by_cases ha' : a = k'
      · simp only [mapDelete, if_neg ha, mapGet, if_pos ha']
      · simp only [mapDelete, if_neg ha, mapGet, if_neg ha', ih]

theorem mem_of_mem_mapDelete {κ α : Type} [DecidableEq κ]
    (m : List (κ × α)) (k : κ) :
    ∀ kv ∈ mapDelete m k, kv ∈ m ∧ kv.1 ≠ k := by
  induction m with
  | nil => simp [mapDelete]
  | cons kv₀ rest ih =>
    obtain ⟨a, b⟩ := kv₀
    intro kv hkv
    by_cases h : a = k
    · rw [mapDelete, if_pos h] at hkv
      have := ih kv hkv
      exact ⟨List.mem_cons_of_mem _ this.1, this.2⟩
    · rw [mapDelete, if_neg h] at hkv
      rcases List.mem_cons.1 hkv with h1 | h2
      · subst h1; exact ⟨List.mem_cons_self _ _, h⟩
      · have := ih kv h2
        exact ⟨List.mem_cons_of_mem _ this.1, this.2⟩

/-! ### Claim theorems -/

/-- C9: `reset()` clears exactly the provider table, the singleton cache and
the request-instance cache, leaving the pending-resolution table and the
deferred-resolution flag (and the rest of the state) unchanged; in particular
`getPendingResolutions` reports the same records afterwards. -/
theorem reset_clears_only_providers_and_caches (st : ContainerState) :
    (reset st).providers = [] ∧
    (reset st).singletons = [] ∧
    (reset st).requestInstances = [] ∧
    (reset st).pendingResolutions = st.pendingResolutions ∧
    (reset st).enableDeferredResolution = st.enableDeferredResolution ∧
    (reset st).resolutionStack = st.resolutionStack ∧
    (reset st).nextInst = st.nextInst ∧
    getPendingResolutions (reset st) = getPendingResolutions st :=
  ⟨rfl, rfl, rfl, rfl, rfl, rfl, rfl, rfl⟩

/-- C8: `register(token, provider)` inserts or overwrites the provider entry
for the token (leaving other providers unchanged), removes any pending
deferred-resolution record for the token (leaving other pending records
unchanged), and — provided no other pending token renders to the same name —
`getPendingResolutions()` no longer reports the token's name. -/
theorem mapGet_eq_none_forall {κ α : Type} [DecidableEq κ]
    (m : List (κ × α)) (k : κ) (h : mapGet m k = none) :
    ∀ kv ∈ m, kv.1 ≠ k := by
  induction m with
  | nil => simp
  | cons kv rest ih =>
    obtain ⟨a, b⟩ := kv
    by_cases ha : a = k
    · simp [mapGet, ha] at h
    · simp only [mapGet, ha, if_false] at h
      intro kv' hkv'
      rcases List.mem_cons.1 hkv' with h1 | h2
      · subst h1; exact ha
      · exact ih h kv' h2

theorem register_overwrites_and_clears_pending (st : ContainerState)
    (token : Token) (p : Provider)
    (hname : ∀ kp ∈ st.pendingResolutions, kp.1 ≠ token →
      getTokenName kp.2.token ≠ getTokenName token) :
    mapGet (register st token p).providers token = some p ∧
    (∀ k, k ≠ token →
      mapGet (register st token p).providers k = mapGet st.providers k) ∧
    mapGet (register st token p).pendingResolutions token = none ∧
    (∀ k, k ≠ token →
      mapGet (register st token p).pendingResolutions k =
        mapGet st.pendingResolutions k) ∧
    (∀ info ∈ getPendingResolutions (register st token p),
      info.token ≠ getTokenName token) := by
  have hprov : (register st token p).providers = mapSet st.providers token p := by
    unfold register
    by_cases h : (mapGet st.pendingResolutions token).isSome <;> simp [h]
  have hpend : (register st token p).pendingResolutions =
      (if (mapGet st.pendingResolutions token).isSome then
        mapDelete st.pendingResolutions token else st.pendingResolutions) := by
    unfold register
    by_cases h : (mapGet st.pendingResolutions token).isSome <;> simp [h]
  refine ⟨?_, ?_, ?_, ?_, ?_⟩
  · rw [hprov]; exact mapGet_mapSet_self _ _ _
  · intro k hk; rw [hprov]; exact mapGet_mapSet_ne _ _ _ _ hk
  · rw [hpend]
    cases hh : mapGet st.pendingResolutions token with
    | none => simp only [hh, Option.isSome_none, Bool.false_eq_true, if_false]
    | some v => simp only [hh, Option.isSome_some, if_true,
        mapGet_mapDelete_self]
  · intro k hk
    rw [hpend]
    cases hh : mapGet st.pendingResolutions token with
    | none => simp only [hh, Option.isSome_none, Bool.false_eq_true, if_false]
    | some v => simp only [hh, Option.isSome_some, if_true,
        mapGet_mapDelete_ne _ _ _ hk]
  · intro info hinfo
    unfold getPendingResolutions at hinfo
    obtain ⟨kp, hkp, hf⟩ := List.mem_map.1 hinfo
    rw [hpend] at hkp
    have hne : kp.1 ≠ token ∧ kp ∈ st.pendingResolutions := by
      cases hh : mapGet st.pendingResolutions token with
      | none =>
        rw [hh] at hkp
        simp only [Option.isSome_none, Bool.false_eq_true, if_false] at hkp
        exact ⟨mapGet_eq_none_forall _ _ hh kp hkp, hkp⟩
      | some v =>
        rw [hh] at hkp
        simp only [Option.isSome_some, if_true] at hkp
        have := mem_of_mem_mapDelete _ _ kp hkp
        exact ⟨this.2, this.1⟩
    have := hname kp hne.2 hne.1
    rw [← hf]
    simpa using this

/-- Claim C8 witness: at a concrete container holding a pending record for a
different token, registering a provider stores it and clears nothing else,
and the registered token has no pending record afterwards. -/
theorem register_overwrites_and_clears_pending_witness :
    mapGet (register
        { emptyContainer with pendingResolutions :=
            [(Token.str "B", PendingResolution.mk (Token.str "B") 1 ⟨"boom"⟩ [])] }
        (Token.str "A") { useValue := some 7 }).providers (Token.str "A") =
      some { useValue := some 7 } ∧
    mapGet (register
        { emptyContainer with pendingResolutions :=
            [(Token.str "B", PendingResolution.mk (Token.str "B") 1 ⟨"boom"⟩ [])] }
        (Token.str "A") { useValue := some 7 }).pendingResolutions
        (Token.str "A") = none := by
  have h := register_overwrites_and_clears_pending
    { emptyContainer with pendingResolutions :=
        [(Token.str "B", PendingResolution.mk (Token.str "B") 1 ⟨"boom"⟩ [])] }
    (Token.str "A") { useValue := some 7 } (by decide)
  exact ⟨h.1, h.2.2.1⟩

set_option maxRecDepth 10000 in
/-- Claim C2: in the `ServiceA → ServiceB → ServiceA` singleton scenario,
resolving `ServiceA` throws the circular-dependency error whose message
enumerates the chain; deferred resolution (enabled) does not retry it — the
outcome is a synchronous throw and no pending record is created — the
resolution stack is empty afterwards, and a subsequent unrelated resolution
of `ServiceC` succeeds. -/
theorem circular_dependency_chain_and_recovery :
    cdCall.2 =
      .err ⟨"Dependência circular detectada: ServiceA -> ServiceB -> ServiceA"⟩ ∧
    cdState.enableDeferredResolution = true ∧
    cdCall.1.pendingResolutions = [] ∧
    cdCall.1.resolutionStack = [] ∧
    (resolve cdEnv 20 cdCall.1 (Token.cls "ServiceC") none).2 = .ok 0 := by
  decide

set_option maxRecDepth 10000 in
/-- Claim C3 counterexample: after two failed deferred resolutions of the
unresolvable token (whose failure message matches the initialization-order
heuristic) the pending record holds attempts = 2, yet the third resolve call
does not escalate to a fatal error: it defers again (handing back a promise
that rejects with the original error) and records attempts = 3. -/
theorem deferred_third_failure_defers_again_counterexample :
    (mapGet c3Call2.1.pendingResolutions c3Tok).map PendingResolution.attempts =
      some 2 ∧
    isInitializationError (unresolvedError trivEnv emptyContainer c3Tok) = true ∧
    c3Call3.2.isDeferredErr = true ∧
    c3Call3.2.isErr = false ∧
    (mapGet c3Call3.1.pendingResolutions c3Tok).map PendingResolution.attempts =
      some 3 := by
  decide

set_option maxRecDepth 10000 in
/-- Claim C3 (amended): with deferred resolution enabled, resolving a
providerless token whose failure message matches the initialization-order
heuristic creates a pending record with attempts = 1 and hands back a retrying
promise; the second and third failures likewise defer with attempts = 2 and 3;
the fourth resolve call, finding 3 exhausted attempts, throws the fatal
could-not-resolve error wrapping the original cause.  With deferred resolution
disabled the same resolve throws the unresolved-provider error immediately. -/
theorem deferred_retry_state_machine :
    c3Call1.2.isDeferredErr = true ∧
    (mapGet c3Call1.1.pendingResolutions c3Tok).map PendingResolution.attempts =
      some 1 ∧
    c3Call2.2.isDeferredErr = true ∧
    (mapGet c3Call2.1.pendingResolutions c3Tok).map PendingResolution.attempts =
      some 2 ∧
    c3Call3.2.isDeferredErr = true ∧
    (mapGet c3Call3.1.pendingResolutions c3Tok).map PendingResolution.attempts =
      some 3 ∧
    c3Call4.2 = .err (deferredExhaustedError (getTokenName c3Tok)
      (unresolvedError trivEnv emptyContainer c3Tok)) ∧
    (resolve trivEnv 20 (setDeferredResolution emptyContainer false) c3Tok
      none).2 =
      .err (unresolvedError trivEnv (setDeferredResolution emptyContainer false)
        c3Tok) := by
  decide

set_option maxRecDepth 10000 in
/-- Claim C1 counterexample: a token registered with a factory provider and
singleton scope yields a fresh instance on each of two consecutive resolve
calls (instances 0 and then 1): caching by token does not apply to the
factory strategy even under singleton scope. -/
theorem factory_singleton_scope_not_cached_counterexample :
    (mapGet c1State.providers (Token.str "LoggerFactory")).map Provider.scope =
      some (some .singleton) ∧
    (resolve trivEnv 20 c1State (Token.str "LoggerFactory") none).2 = .ok 0 ∧
    (resolve trivEnv 20
      (resolve trivEnv 20 c1State (Token.str "LoggerFactory") none).1
      (Token.str "LoggerFactory") none).2 = .ok 1 := by
  decide

/-- Claim C7 counterexample: an instance whose `onInit` throws synchronously
makes `applyLifecycle` propagate the exception to its caller (and the
instance is not registered for cleanup), contradicting the claim that a
failing hook never aborts the caller regardless of how it fails. -/
theorem applyLifecycle_sync_throw_counterexample :
    (applyLifecycle emptyLC
      (InstanceSpec.mk 0 (some .throwSync) (some .ok) none none)
      .singleton none).2.2 = true ∧
    (applyLifecycle emptyLC
      (InstanceSpec.mk 0 (some .throwSync) (some .ok) none none)
      .singleton none).1 = emptyLC := by
  decide

set_option maxHeartbeats 1000000 in
/-- Claim C7 (amended): `applyLifecycle` completes normally whenever neither
`onInit` nor `onRequestStart` throws synchronously; in particular a hook that
rejects asynchronously is caught and logged (an error-logged event is
recorded) and never propagates.  A synchronous throw, by contrast, propagates
to the caller. -/
theorem applyLifecycle_async_rejections_logged (st : LCState)
    (inst : InstanceSpec) (scope : LifeCycleOpt) (rid : Option String)
    (hi : inst.onInit ≠ some .throwSync)
    (hs : inst.onRequestStart ≠ some .throwSync) :
    (applyLifecycle st inst scope rid).2.2 = false ∧
    (inst.onInit = some .rejectAsync →
      Event.initErrorLogged inst.id ∈ (applyLifecycle st inst scope rid).2.1) ∧
    (∀ r, scope = .request → rid = some r → r ≠ "" →
      inst.onRequestStart = some .rejectAsync →
      Event.reqStartErrorLogged inst.id ∈
        (applyLifecycle st inst scope rid).2.1) := by
  obtain ⟨id, oI, oD, oS, oE⟩ := inst
  simp only at hi hs ⊢
  rcases oI with _ | bI <;> [skip; cases bI] <;>
    first
    | exact absurd rfl hi
    | (rcases oS with _ | bS <;> [skip; cases bS] <;>
        first
        | exact absurd rfl hs
        | (rcases scope <;> rcases rid with _ | r <;>
            simp [applyLifecycle] <;>
            by_cases hr : r = "" <;> simp [applyLifecycle, hr]))

/-- Claim C7 witness: a request-scoped instance whose `onInit` and
`onRequestStart` both reject asynchronously: `applyLifecycle` completes
normally and both rejections are logged. -/
theorem applyLifecycle_async_rejections_logged_witness :
    (applyLifecycle emptyLC
      (InstanceSpec.mk 3 (some .rejectAsync) none (some .rejectAsync) none)
      .request (some "r1")).2.2 = false ∧
    Event.initErrorLogged 3 ∈ (applyLifecycle emptyLC
      (InstanceSpec.mk 3 (some .rejectAsync) none (some .rejectAsync) none)
      .request (some "r1")).2.1 ∧
    Event.reqStartErrorLogged 3 ∈ (applyLifecycle emptyLC
      (InstanceSpec.mk 3 (some .rejectAsync) none (some .rejectAsync) none)
      .request (some "r1")).2.1 := by
  have h := applyLifecycle_async_rejections_logged emptyLC
    (InstanceSpec.mk 3 (some .rejectAsync) none (some .rejectAsync) none)
    .request (some "r1") (by decide) (by decide)
  exact ⟨h.1, h.2.1 rfl, h.2.2 "r1" rfl rfl (by decide) rfl⟩

theorem cleanupRefs_append (l₁ l₂ : List RRef) :
    cleanupRefs (l₁ ++ l₂) = cleanupRefs l₁ ++ cleanupRefs l₂ := by
  induction l₁ with
  | nil => simp [cleanupRefs]
  | cons r rest ih => simp [cleanupRefs, ih]

theorem cleanupRef_head_some (r : RRef) (b : HookBehavior)
    (h : r.onRequestEndB = some b) :
    ∃ tail, cleanupRef r = Event.reqEndCalled r.instId :: tail := by
  cases b <;> simp [cleanupRef, h]

theorem cleanupRef_head_ok (r : RRef) (h : r.onRequestEndB = some .ok) :
    ∃ tail, cleanupRef r = Event.reqEndCalled r.instId ::
      Event.destroyCalled r.instId .request :: tail := by
  simp [cleanupRef, h]

theorem mem_set_update (eB : Option HookBehavior) :
    ∀ (refs : List RRef) (i : Nat) (r₀ : RRef), refs[i]? = some r₀ →
      ∀ r ∈ refs, r.onRequestEndB = eB →
        r ∈ refs.set i { r₀ with onRequestEndB := eB } := by
  intro refs
  induction refs with
  | nil => intro i r₀ h; simp at h
  | cons a rest ih =>
    intro i r₀ h r hr hre
    cases i with
    | zero =>
      simp only [List.getElem?_cons_zero, Option.some.injEq] at h
      rcases List.mem_cons.1 hr with h1 | h2
      · have hb : ({ r₀ with onRequestEndB := eB } : RRef) = r := by
          obtain ⟨ri, rd, re⟩ := r₀
          have hr' : r = RRef.mk ri rd re := h1.trans h
          subst hr'
          simp only at hre
          show RRef.mk ri rd eB = RRef.mk ri rd re
          rw [← hre]
        simp [List.set, hb]
      · simp only [List.set, List.mem_cons]
        right; exact h2
    | succ n =>
      simp only [List.getElem?_cons_succ] at h
      rcases List.mem_cons.1 hr with h1 | h2
      · subst h1; simp [List.set]
      · simp only [List.set, List.mem_cons]
        right; exact ih n r₀ h r h2 hre

theorem applyLifecycle_state_eq (st : LCState) (inst : InstanceSpec)
    (scope : LifeCycleOpt) (rid : Option String)
    (hi : inst.onInit ≠ some .throwSync)
    (hs : inst.onRequestStart ≠ some .throwSync) :
    (applyLifecycle st inst scope rid).1 =
      (let st₁ :=
        match inst.onDestroy with
        | some d => registerForCleanup st inst scope rid d
        | none => st
      match scope, rid, inst.onRequestEnd with
      | .request, some r, some _ =>
        if r ≠ "" then registerForRequestCleanup st₁ inst r else st₁
      | _, _, _ => st₁) := by
  obtain ⟨id, oI, oD, oS, oE⟩ := inst
  simp only at hi hs ⊢
  rcases oI with _ | bI <;> [skip; cases bI] <;>
    first
    | exact absurd rfl hi
    | (rcases oS with _ | bS <;> [skip; cases bS] <;>
        first
        | exact absurd rfl hs
        | (rcases scope <;> rcases rid with _ | r <;>
            simp [applyLifecycle] <;>
            by_cases hr : r = "" <;> simp [applyLifecycle, hr]))



theorem cleanup_bucket_spec (st₁ : LCState) (rid : String) (refs : List RRef)
    (hb : mapGet st₁.request rid = some refs) :
    (∀ r ∈ refs, ∀ b, r.onRequestEndB = some b →
      ∃ l₁ l₂, (cleanupRequest st₁ rid).2 =
        l₁ ++ Event.reqEndCalled r.instId :: l₂) ∧
    (∀ r ∈ refs, r.onRequestEndB = some .ok →
      ∃ l₁ l₂, (cleanupRequest st₁ rid).2 =
        l₁ ++ Event.reqEndCalled r.instId ::
          Event.destroyCalled r.instId .request :: l₂) ∧
    mapGet (cleanupRequest st₁ rid).1.request rid = none ∧
    cleanupRequest (cleanupRequest st₁ rid).1 rid =
      ((cleanupRequest st₁ rid).1, []) := by
  have hcr : cleanupRequest st₁ rid =
      ({ st₁ with request := mapDelete st₁.request rid }, cleanupRefs refs) := by
    unfold cleanupRequest
    rw [hb]
  refine ⟨?_, ?_, ?_, ?_⟩
  · intro r hr b hrb
    obtain ⟨s, t, hst⟩ := List.append_of_mem hr
    obtain ⟨tail, htail⟩ := cleanupRef_head_some r b hrb
    refine ⟨cleanupRefs s, tail ++ cleanupRefs t, ?_⟩
    rw [hcr]
    simp only [hst, cleanupRefs_append, cleanupRefs, htail]
    simp
  · intro r hr hrb
    obtain ⟨s, t, hst⟩ := List.append_of_mem hr
    obtain ⟨tail, htail⟩ := cleanupRef_head_ok r hrb
    refine ⟨cleanupRefs s, tail ++ cleanupRefs t, ?_⟩
    rw [hcr]
    simp only [hst, cleanupRefs_append, cleanupRefs, htail]
    simp
  · rw [hcr]
    exact mapGet_mapDelete_self _ _
  · rw [hcr]
    unfold cleanupRequest
    rw [show mapGet ({ st₁ with request := mapDelete st₁.request rid } :
      LCState).request rid = none from mapGet_mapDelete_self _ _]

theorem registerForRequestCleanup_mem (st : LCState) (inst : InstanceSpec)
    (rid : String) (refs : List RRef)
    (hb : mapGet st.request rid = some refs) (r : RRef) (hr : r ∈ refs)
    (hre : r.onRequestEndB = inst.onRequestEnd) :
    ∃ refs', mapGet (registerForRequestCleanup st inst rid).request rid =
      some refs' ∧ r ∈ refs' := by
  unfold registerForRequestCleanup
  simp only [hb, Option.getD_some]
  cases hidx : refs.findIdx? (fun x => x.instId == inst.id) with
  | none =>
    simp only [hidx]
    exact ⟨refs, hb, hr⟩
  | some i =>
    simp only [hidx]
    cases hget : refs[i]? with
    | none =>
      simp only [hget]
      exact ⟨refs, hb, hr⟩
    | some r₀ =>
      simp only [hget]
      exact ⟨refs.set i { r₀ with onRequestEndB := inst.onRequestEnd },
        mapGet_mapSet_self _ _ _,
        mem_set_update inst.onRequestEnd refs i r₀ hget r hr hre⟩

/-- Claim C5: for an instance exposing both `onDestroy` and `onRequestEnd`
hooks that `applyLifecycle` registered under request id `rid`, the registered
record is in the request bucket; `cleanupRequest rid` invokes, for every
record of that bucket, its `onRequestEnd` (regardless of errors in other
records' hooks) and — when `onRequestEnd` succeeds — its `onDestroy`
immediately after it; the bucket is then deleted, so a second
`cleanupRequest rid` returns the state unchanged with no events. -/
theorem cleanupRequest_end_before_destroy_and_idempotent
    (st₀ : LCState) (inst : InstanceSpec) (rid : String)
    (d e : HookBehavior) (st₁ : LCState)
    (hrid : rid ≠ "")
    (hd : inst.onDestroy = some d)
    (he : inst.onRequestEnd = some e)
    (hi : inst.onInit ≠ some .throwSync)
    (hs : inst.onRequestStart ≠ some .throwSync)
    (hst : st₁ = (applyLifecycle st₀ inst .request (some rid)).1) :
    ∃ refs, mapGet st₁.request rid = some refs ∧
      RRef.mk inst.id d (some e) ∈ refs ∧
      (∀ r ∈ refs, ∀ b, r.onRequestEndB = some b →
        ∃ l₁ l₂, (cleanupRequest st₁ rid).2 =
          l₁ ++ Event.reqEndCalled r.instId :: l₂) ∧
      (∀ r ∈ refs, r.onRequestEndB = some .ok →
        ∃ l₁ l₂, (cleanupRequest st₁ rid).2 =
          l₁ ++ Event.reqEndCalled r.instId ::
            Event.destroyCalled r.instId .request :: l₂) ∧
      mapGet (cleanupRequest st₁ rid).1.request rid = none ∧
      cleanupRequest (cleanupRequest st₁ rid).1 rid =
        ((cleanupRequest st₁ rid).1, []) := by
  have hreg : ∃ refs, mapGet st₁.request rid = some refs ∧
      RRef.mk inst.id d (some e) ∈ refs := by
    rw [hst, applyLifecycle_state_eq st₀ inst .request (some rid) hi hs]
    simp only [hd, he, if_pos hrid]
    unfold registerForCleanup
    simp only [if_pos hrid, he]
    have hmem : (RRef.mk inst.id d (some e)) ∈
        ((mapGet st₀.request rid).getD [] ++ [RRef.mk inst.id d (some e)]) := by
      simp
    exact registerForRequestCleanup_mem _ inst rid _
      (mapGet_mapSet_self _ _ _) _ hmem (by simp [he])
  obtain ⟨refs, hb, hmem⟩ := hreg
  obtain ⟨h1, h2, h3, h4⟩ := cleanup_bucket_spec st₁ rid refs hb
  exact ⟨refs, hb, hmem, h1, h2, h3, h4⟩



theorem eventScopeTag_cleanupRef (r : RRef) :
    ∀ ev ∈ cleanupRef r, eventScopeTag ev = some .request := by
  obtain ⟨i, dB, eB⟩ := r
  rcases eB with _ | b <;> [skip; cases b] <;> cases dB <;>
    simp [cleanupRef, eventScopeTag]

theorem eventScopeTag_cleanupRefs (refs : List RRef) :
    ∀ ev ∈ cleanupRefs refs, eventScopeTag ev = some .request := by
  induction refs with
  | nil => simp [cleanupRefs]
  | cons r rest ih =>
    intro ev hev
    rcases List.mem_append.1 (by simpa [cleanupRefs] using hev) with h | h
    · exact eventScopeTag_cleanupRef r ev h
    · exact ih ev h

theorem eventScopeTag_cleanupRequest (st : LCState) (rid : String) :
    ∀ ev ∈ (cleanupRequest st rid).2, eventScopeTag ev = some .request := by
  unfold cleanupRequest
  cases hm : mapGet st.request rid with
  | none => simp
  | some refs =>
    simpa using eventScopeTag_cleanupRefs refs

theorem eventScopeTag_cleanupRequests (rids : List String) :
    ∀ st, ∀ ev ∈ (cleanupRequests st rids).2, eventScopeTag ev = some .request := by
  induction rids with
  | nil => intro st ev hev; simp [cleanupRequests] at hev
  | cons rid rest ih =>
    intro st ev hev
    rcases hcr : cleanupRequest st rid with ⟨stA, evA⟩
    rcases hcs : cleanupRequests stA rest with ⟨stB, evB⟩
    rw [cleanupRequests, hcr] at hev
    dsimp only at hev
    rw [hcs] at hev
    dsimp only at hev
    rcases List.mem_append.1 hev with h | h
    · have := eventScopeTag_cleanupRequest st rid
      rw [hcr] at this
      exact this ev h
    · have := ih stA
      rw [hcs] at this
      exact this ev h

theorem eventScopeTag_cleanupSRefs (sc : LifeCycleOpt) (refs : List SRef) :
    ∀ ev ∈ cleanupSRefs sc refs, eventScopeTag ev = some sc := by
  induction refs with
  | nil => simp [cleanupSRefs]
  | cons r rest ih =>
    intro ev hev
    rcases List.mem_append.1 (by simpa [cleanupSRefs] using hev) with h | h
    · obtain ⟨i, dB⟩ := r
      cases dB
      case ok =>
        simp only [cleanupSRef, List.append_nil, List.mem_singleton] at h
        subst h; rfl
      case throwSync =>
        simp [cleanupSRef] at h
        rcases h with h | h <;> subst h <;> rfl
      case rejectAsync =>
        simp [cleanupSRef] at h
        rcases h with h | h <;> subst h <;> rfl
    · exact ih ev h

theorem cleanupRequest_frame (st : LCState) (rid : String) :
    (cleanupRequest st rid).1.transient = st.transient ∧
    (cleanupRequest st rid).1.singleton = st.singleton := by
  unfold cleanupRequest
  cases hm : mapGet st.request rid <;> simp

theorem cleanupRequests_frame (rids : List String) :
    ∀ st, (cleanupRequests st rids).1.transient = st.transient ∧
      (cleanupRequests st rids).1.singleton = st.singleton := by
  induction rids with
  | nil => intro st; simp [cleanupRequests]
  | cons rid rest ih =>
    intro st
    rcases hcr : cleanupRequest st rid with ⟨stA, evA⟩
    rcases hcs : cleanupRequests stA rest with ⟨stB, evB⟩
    rw [cleanupRequests, hcr]
    dsimp only
    rw [hcs]
    dsimp only
    have h1 := cleanupRequest_frame st rid
    rw [hcr] at h1
    have h2 := ih stA
    rw [hcs] at h2
    dsimp only at h1 h2
    exact ⟨h2.1.trans h1.1, h2.2.trans h1.2⟩

theorem cleanupRequests_request_nil (rids : List String) :
    ∀ st : LCState, (∀ kv ∈ st.request, kv.1 ∈ rids) →
      (cleanupRequests st rids).1.request = [] := by
  induction rids with
  | nil =>
    intro st h
    simp only [cleanupRequests]
    exact List.eq_nil_iff_forall_not_mem.2
      (fun kv hkv => absurd (h kv hkv) (List.not_mem_nil _))
  | cons rid rest ih =>
    intro st h
    rcases hcr : cleanupRequest st rid with ⟨stA, evA⟩
    rcases hcs : cleanupRequests stA rest with ⟨stB, evB⟩
    rw [cleanupRequests, hcr]
    dsimp only
    rw [hcs]
    dsimp only
    have hA : (cleanupRequests stA rest).1.request = [] := by
      apply ih
      intro kv hkv
      unfold cleanupRequest at hcr
      cases hm : mapGet st.request rid with
      | none =>
        rw [hm] at hcr
        simp only at hcr
        have hst : stA = st := (Prod.mk.injEq _ _ _ _ ▸ hcr).1.symm
        rw [hst] at hkv
        have hne := mapGet_eq_none_forall _ _ hm kv hkv
        rcases List.mem_cons.1 (h kv hkv) with h1 | h2
        · exact absurd h1 hne
        · exact h2
      | some refs =>
        rw [hm] at hcr
        simp only at hcr
        have hst : stA = { st with request := mapDelete st.request rid } :=
          (Prod.mk.injEq _ _ _ _ ▸ hcr).1.symm
        rw [hst] at hkv
        simp only at hkv
        have := mem_of_mem_mapDelete _ _ kv hkv
        rcases List.mem_cons.1 (h kv this.1) with h1 | h2
        · exact absurd h1 this.2
        · exact h2
    rw [hcs] at hA
    simpa using hA

set_option maxHeartbeats 1000000 in
/-- Claim C6: `shutdown()` produces a trace that decomposes into the events
of the active request buckets, then the transient destroys, then the
singleton destroys — so every singleton `onDestroy` runs after all
request-scoped cleanup has finished — and afterwards the transient and
singleton buckets (and the request map) are empty. -/
theorem shutdown_requests_then_transients_then_singletons (st : LCState) :
    (∃ evR evT evS,
      (shutdown st).2 = evR ++ evT ++ evS ∧
      (∀ ev ∈ evR, eventScopeTag ev = some .request) ∧
      (∀ ev ∈ evT, eventScopeTag ev = some .transient) ∧
      (∀ ev ∈ evS, eventScopeTag ev = some .singleton)) ∧
    (shutdown st).1.transient = [] ∧
    (shutdown st).1.singleton = [] ∧
    (shutdown st).1.request = [] := by
  rcases hcr : cleanupRequests st (st.request.map (fun kv => kv.1)) with ⟨st₁, evR⟩
  have hsh : shutdown st =
      ({ st₁ with transient := [], singleton := [] },
        evR ++ cleanupSRefs .transient st₁.transient ++
          cleanupSRefs .singleton st₁.singleton) := by
    unfold shutdown
    rw [hcr]
    simp [cleanupTransient]
  refine ⟨⟨evR, cleanupSRefs .transient st₁.transient,
    cleanupSRefs .singleton st₁.singleton, ?_, ?_, ?_, ?_⟩, ?_, ?_, ?_⟩
  · rw [hsh]
  · intro ev hev
    have := eventScopeTag_cleanupRequests (st.request.map (fun kv => kv.1)) st
    rw [hcr] at this
    exact this ev hev
  · exact eventScopeTag_cleanupSRefs .transient st₁.transient
  · exact eventScopeTag_cleanupSRefs .singleton st₁.singleton
  · rw [hsh]
  · rw [hsh]
  · rw [hsh]
    have := cleanupRequests_request_nil (st.request.map (fun kv => kv.1)) st
      (fun kv hkv => List.mem_map.2 ⟨kv, hkv, rfl⟩)
    rw [hcr] at this
    simpa using this


/-- Claim C5 witness: one instance with succeeding hooks registered under
request id r1: after cleanup the bucket is gone and a second cleanup is a
no-op. -/
theorem cleanupRequest_end_before_destroy_and_idempotent_witness :
    mapGet (cleanupRequest (applyLifecycle emptyLC
      (InstanceSpec.mk 5 none (some .ok) none (some .ok)) .request
      (some "r1")).1 "r1").1.request "r1" = none ∧
    cleanupRequest (cleanupRequest (applyLifecycle emptyLC
      (InstanceSpec.mk 5 none (some .ok) none (some .ok)) .request
      (some "r1")).1 "r1").1 "r1" =
      ((cleanupRequest (applyLifecycle emptyLC
        (InstanceSpec.mk 5 none (some .ok) none (some .ok)) .request
        (some "r1")).1 "r1").1, []) := by
  have h := cleanupRequest_end_before_destroy_and_idempotent emptyLC
    (InstanceSpec.mk 5 none (some .ok) none (some .ok)) "r1" .ok .ok
    (applyLifecycle emptyLC (InstanceSpec.mk 5 none (some .ok) none (some .ok))
      .request (some "r1")).1
    (by decide) rfl rfl (by decide) (by decide) rfl
  obtain ⟨refs, hb, hmem, h1, h2, h3, h4⟩ := h
  exact ⟨h3, h4⟩

end Injektor

namespace Injektor

theorem presRefl (st : ContainerState) : Pres st st :=
  ⟨fun _ _ h => h, le_refl _, le_refl _, id, rfl, rfl, ⟨[], by simp⟩⟩

theorem presOfEq {st st' : ContainerState} (h : st' = st) : Pres st st' :=
  h ▸ presRefl st

theorem presTrans {s1 s2 s3 : ContainerState} (a : Pres s1 s2) (b : Pres s2 s3) :
    Pres s1 s3 := by
  refine ⟨fun k v h => b.providers k v (a.providers k v h),
    a.instMono.trans b.instMono, a.reqIdMono.trans b.reqIdMono,
    fun h => b.bounded (a.bounded h), b.stack.trans a.stack,
    b.flag.trans a.flag, ?_⟩
  obtain ⟨n1, h1⟩ := a.keys
  obtain ⟨n2, h2⟩ := b.keys
  exact ⟨n1 ++ n2, by rw [h2, h1, List.append_assoc]⟩

theorem mem_mapSet {κ α : Type} [DecidableEq κ]
    (m : List (κ × α)) (k : κ) (v : α) :
    ∀ kv ∈ mapSet m k v, kv ∈ m ∨ kv = (k, v) := by
  induction m with
  | nil => simp [mapSet]
  | cons a rest ih =>
    intro kv hkv
    by_cases h : a.1 = k
    · obtain ⟨a1, a2⟩ := a
      simp only at h
      rw [mapSet, if_pos h] at hkv
      rcases List.mem_cons.1 hkv with h1 | h2
      · exact Or.inr h1
      · exact Or.inl (List.mem_cons_of_mem _ h2)
    · obtain ⟨a1, a2⟩ := a
      simp only at h
      rw [mapSet, if_neg h] at hkv
      rcases List.mem_cons.1 hkv with h1 | h2
      · exact Or.inl (h1 ▸ List.mem_cons_self _ _)
      · rcases ih kv h2 with h3 | h3
        · exact Or.inl (List.mem_cons_of_mem _ h3)
        · exact Or.inr h3

theorem keys_mapSet {κ α : Type} [DecidableEq κ]
    (m : List (κ × α)) (k : κ) (v : α) :
    ∃ nk, (mapSet m k v).map (fun kv => kv.1) =
      m.map (fun kv => kv.1) ++ nk := by
  induction m with
  | nil => exact ⟨[k], by simp [mapSet]⟩
  | cons a rest ih =>
    by_cases h : a.1 = k
    · obtain ⟨a1, a2⟩ := a
      simp only at h
      rw [mapSet, if_pos h]
      exact ⟨[], by simp [h]⟩
    · obtain ⟨a1, a2⟩ := a
      simp only at h
      rw [mapSet, if_neg h]
      obtain ⟨nk, hnk⟩ := ih
      exact ⟨nk, by simp [hnk]⟩

theorem keys_mapSet_mem {κ α : Type} [DecidableEq κ]
    (m : List (κ × α)) (k : κ) (v : α) (hmem : mapGet m k ≠ none) :
    (mapSet m k v).map (fun kv => kv.1) = m.map (fun kv => kv.1) := by
  induction m with
  | nil => simp [mapGet] at hmem
  | cons a rest ih =>
    obtain ⟨a1, a2⟩ := a
    by_cases h : a1 = k
    · rw [mapSet, if_pos h]
      simp [h]
    · rw [mapSet, if_neg h]
      rw [mapGet, if_neg h] at hmem
      simp [ih hmem]

theorem setDelete_not_mem (s : List Token) (t : Token) (h : t ∉ s) :
    setDelete s t = s := by
  unfold setDelete
  apply List.filter_eq_self.2
  intro a ha
  exact decide_eq_true (fun he => h (he ▸ ha))

theorem setDelete_push (s : List Token) (t : Token) (h : t ∉ s) :
    setDelete (setAdd s t) t = s := by
  rw [setAdd, if_neg h]
  have h1 := setDelete_not_mem s t h
  unfold setDelete at h1 ⊢
  rw [List.filter_append, h1]
  simp

/-- Pushing the token onto the stack then popping it restores the state. -/
theorem pres_pop {st st₂ : ContainerState} (t : Token)
    (hstk : t ∉ st.resolutionStack)
    (hP : Pres { st with resolutionStack := setAdd st.resolutionStack t } st₂) :
    Pres st { st₂ with resolutionStack := setDelete st₂.resolutionStack t } := by
  refine ⟨hP.providers, hP.instMono, hP.reqIdMono, hP.bounded, ?_, hP.flag, hP.keys⟩
  show setDelete st₂.resolutionStack t = st.resolutionStack
  rw [hP.stack]
  exact setDelete_push _ _ hstk

/-- Updates that only touch the pending-resolution table preserve `Pres`. -/
theorem pres_pending (st : ContainerState) (x : List (Token × PendingResolution)) :
    Pres st { st with pendingResolutions := x } :=
  ⟨fun _ _ h => h, le_refl _, le_refl _, id, rfl, rfl, ⟨[], by simp [reqKeys]⟩⟩

/-- Bumping the allocation counter preserves `Pres`. -/
theorem pres_bumpInst (st : ContainerState) :
    Pres st { st with nextInst := st.nextInst + 1 } := by
  refine ⟨fun _ _ h => h, Nat.le_succ _, le_refl _, ?_, rfl, rfl, ⟨[], by simp [reqKeys]⟩⟩
  intro ⟨h1, h2⟩
  exact ⟨fun kv hkv => (h1 kv hkv).trans (Nat.lt_succ_self _),
    fun rb hrb kv hkv => (h2 rb hrb kv hkv).trans (Nat.lt_succ_self _)⟩

/-- Drawing a fresh request id preserves `Pres`. -/
theorem pres_genReqId (st : ContainerState) :
    Pres st (generateRequestId st).2 :=
  ⟨fun _ _ h => h, le_refl _, Nat.le_succ _, id, rfl, rfl,
    ⟨[], by simp [reqKeys, generateRequestId]⟩⟩

/-- Creating an empty request bucket preserves `Pres`. -/
theorem pres_newBucket (st : ContainerState) (rid : String) :
    Pres st { st with requestInstances := mapSet st.requestInstances rid [] } := by
  refine ⟨fun _ _ h => h, le_refl _, le_refl _, ?_, rfl, rfl, ?_⟩
  · intro ⟨h1, h2⟩
    refine ⟨h1, fun rb hrb kv hkv => ?_⟩
    rcases mem_mapSet _ _ _ rb hrb with h | h
    · exact h2 rb h kv hkv
    · rw [h] at hkv
      simp at hkv
  · exact keys_mapSet st.requestInstances rid []

/-- Caching a freshly bounded instance in the singleton table preserves
`Pres`. -/
theorem pres_cacheSingleton (st : ContainerState) (t : Token) (v : Inst)
    (hv : v < st.nextInst) :
    Pres st { st with singletons := mapSet st.singletons t v } := by
  refine ⟨fun _ _ h => h, le_refl _, le_refl _, ?_, rfl, rfl, ⟨[], by simp [reqKeys]⟩⟩
  intro ⟨h1, h2⟩
  refine ⟨fun kv hkv => ?_, h2⟩
  rcases mem_mapSet _ _ _ kv hkv with h | h
  · exact h1 kv h
  · rw [h]; exact hv

theorem mapGet_mem {κ α : Type} [DecidableEq κ]
    (m : List (κ × α)) (k : κ) (v : α) (h : mapGet m k = some v) :
    (k, v) ∈ m := by
  induction m with
  | nil => simp [mapGet] at h
  | cons a rest ih =>
    obtain ⟨a1, a2⟩ := a
    by_cases ha : a1 = k
    · simp only [mapGet, if_pos ha] at h
      cases h
      exact ha ▸ List.mem_cons_self _ _
    · simp only [mapGet, if_neg ha] at h
      exact List.mem_cons_of_mem _ (ih h)

/-- Caching a bounded instance in a request bucket preserves `Pres`. -/
theorem pres_cacheRequest (st : ContainerState) (rid : String) (t : Token)
    (v : Inst) (hv : v < st.nextInst) :
    Pres st { st with requestInstances := mapSet st.requestInstances rid (mapSet ((mapGet st.requestInstances rid).getD []) t v) } := by
  refine ⟨fun _ _ h => h, le_refl _, le_refl _, ?_, rfl, rfl, ?_⟩
  · intro ⟨h1, h2⟩
    refine ⟨h1, fun rb hrb kv hkv => ?_⟩
    rcases mem_mapSet _ _ _ rb hrb with h | h
    · exact h2 rb h kv hkv
    · rw [h] at hkv
      simp only at hkv
      rcases mem_mapSet _ _ _ kv hkv with h' | h'
      · cases hm : mapGet st.requestInstances rid with
        | none => rw [hm] at h'; simp at h'
        | some m =>
          rw [hm] at h'
          simp only [Option.getD_some] at h'
          exact h2 _ (mapGet_mem _ _ _ hm) kv h'
      · rw [h']; exact hv
  · exact keys_mapSet _ _ _

/-- Unfolded form of `register`. -/
theorem register_eq (st : ContainerState) (token : Token) (p : Provider) :
    register st token p =
      { st with
          providers := mapSet st.providers token p,
          pendingResolutions :=
            if (mapGet st.pendingResolutions token).isSome then
              mapDelete st.pendingResolutions token
            else st.pendingResolutions } := by
  unfold register
  dsimp only
  by_cases h : (mapGet st.pendingResolutions token).isSome = true
  · simp only [h, if_true]
  · simp only [h, Bool.false_eq_true, if_false]

/-- `register` on a token with no current provider preserves `Pres`. -/
theorem pres_register (st : ContainerState) (token : Token) (p : Provider)
    (hnone : mapGet st.providers token = none) :
    Pres st (register st token p) := by
  rw [register_eq]
  refine ⟨?_, le_refl _, le_refl _, id, rfl, rfl, ⟨[], by simp [reqKeys]⟩⟩
  intro k v h
  have hk : k ≠ token := fun he => by rw [he, hnone] at h; cases h
  show mapGet (mapSet st.providers token p) k = some v
  rw [mapGet_mapSet_ne _ _ _ _ hk]
  exact h

/-- `tryAutoRegister` (called only when the token has no provider) preserves
`Pres`. -/
theorem pres_tryAutoRegister (E : Env) (st : ContainerState) (name : String)
    (hnone : mapGet st.providers (Token.cls name) = none) :
    Pres st (tryAutoRegister E st name).1 := by
  unfold tryAutoRegister
  split
  · exact pres_register _ _ _ hnone
  · split
    · exact pres_register _ _ _ hnone
    · split
      · exact pres_register _ _ _ hnone
      · split
        · exact pres_register _ _ _ hnone
        · split
          · exact pres_register _ _ _ hnone
          · exact presRefl st

/-- The synchronous part of the deferred handler only touches the pending
table. -/
theorem pres_handleDeferredSync (E : Env) (st : ContainerState) (t : Token)
    (e : DIError) : Pres st (handleDeferredSync E st t e).1 := by
  unfold handleDeferredSync
  dsimp only
  split
  · split
    · exact presRefl st
    · exact pres_pending st _
  · exact pres_pending st _

/-- One-step unfolding of `resolveInternal` at positive fuel (the automatic
equation generator does not handle this mutual definition). -/
theorem resolveInternal_succ (E : Env) (f : Nat) (st : ContainerState)
    (token : Token) (requestId : Option String) :
    resolveInternal E (f + 1) st token requestId =
      (match mapGet st.providers token with
      | none =>
        match token with
        | .cls name =>
          match tryAutoRegister E st name with
          | (st₁, true) => resolveInternal E f st₁ token requestId
          | (st₁, false) => (st₁, .err (unresolvedError E st₁ token))
        | .str _ => (st, .err (unresolvedError E st token))
      | some provider =>
        match provider.useValue with
        | some v => (st, .ok v)
        | none =>
          match provider.useFactory with
          | some .fresh =>
            ({ st with nextInst := st.nextInst + 1 }, .ok st.nextInst)
          | some (.const v) => (st, .ok v)
          | none =>
            match provider.useClass with
            | none => (st, .err (noClassOrFactoryError token))
            | some target =>
              match provider.scope.getD .singleton with
              | .singleton => resolveSingleton E f st token target
              | .transient => resolveTransient E f st target requestId
              | .request =>
                match requestId with
                | some rid => resolveRequest E f st token target rid
                | none =>
                  let (rid, st₁) := generateRequestId st
                  resolveRequest E f st₁ token target rid) := rfl

theorem createInstance_ok_bound (E : Env) (f : Nat) (st : ContainerState)
    (target : String) (rid : Option String) (st' : ContainerState) (i : Inst)
    (h : createInstance E f st target rid = (st', .ok i)) : i < st'.nextInst := by
  match f with
  | 0 =>
    rw [createInstance] at h
    injection h with h1 h2
    exact absurd h2 (by simp)
  | f + 1 =>
    rw [createInstance] at h
    rcases hd : resolveDeps E f st (E.paramtypes target) rid with ⟨st₁, r⟩
    rw [hd] at h
    dsimp only at h
    cases r with
    | ok v =>
      injection h with h1 h2
      injection h2 with h3
      rw [← h1, ← h3]
      exact Nat.lt_succ_self _
    | err e => injection h with h1 h2; exact absurd h2 (by simp)
    | deferredOk v => injection h with h1 h2; exact absurd h2 (by simp)
    | deferredErr e => injection h with h1 h2; exact absurd h2 (by simp)
    | noFuel => injection h with h1 h2; exact absurd h2 (by simp)

set_option maxHeartbeats 2000000 in
theorem presAll (E : Env) : ∀ f : Nat,
    (∀ st t rid, Pres st (resolve E f st t rid).1) ∧
    (∀ st t rid c, Pres st (runDeferredRetries E f st t rid c).1) ∧
    (∀ st t rid, Pres st (resolveInternal E f st t rid).1) ∧
    (∀ st t target, Pres st (resolveSingleton E f st t target).1) ∧
    (∀ st target rid, Pres st (resolveTransient E f st target rid).1) ∧
    (∀ st t target r, Pres st (resolveRequest E f st t target r).1) ∧
    (∀ st target rid, Pres st (createInstance E f st target rid).1) ∧
    (∀ st deps rid, Pres st (resolveDeps E f st deps rid).1) := by
  intro f
  induction f with
  | zero =>
    refine ⟨?_, ?_, ?_, ?_, ?_, ?_, ?_, ?_⟩ <;> intros <;> exact presRefl _
  | succ f ih =>
    obtain ⟨ihR, ihD, ihI, ihS, ihT, ihQ, ihC, ihL⟩ := ih
    refine ⟨?_, ?_, ?_, ?_, ?_, ?_, ?_, ?_⟩
    -- resolve
    · intro st t rid
      rw [resolve]
      by_cases hstk : t ∈ st.resolutionStack
      · rw [if_pos hstk]
        exact presRefl st
      · rw [if_neg hstk]
        dsimp only
        rcases hri : resolveInternal E f
          { st with resolutionStack := setAdd st.resolutionStack t } t rid
          with ⟨st₂, r⟩
        try rw [hri]
        dsimp only
        have hP1 : Pres { st with resolutionStack := setAdd st.resolutionStack t }
            st₂ := by
          have := ihI { st with resolutionStack := setAdd st.resolutionStack t }
            t rid
          rw [hri] at this
          exact this
        cases r with
        | err e =>
          dsimp only
          by_cases hdef :
              (st₂.enableDeferredResolution && isInitializationError e) = true
          · rw [if_pos hdef]
            rcases hds : handleDeferredSync E st₂ t e with ⟨st₃, step⟩
            try rw [hds]
            dsimp only
            have hP2 : Pres st₂ st₃ := by
              have := pres_handleDeferredSync E st₂ t e
              rw [hds] at this
              exact this
            cases step with
            | fatal fe => exact pres_pop t hstk (presTrans hP1 hP2)
            | promise cap =>
              exact presTrans (pres_pop t hstk (presTrans hP1 hP2))
                (ihD _ t rid cap)
          · rw [if_neg hdef]
            exact pres_pop t hstk hP1
        | ok v => exact pres_pop t hstk hP1
        | deferredOk v => exact pres_pop t hstk hP1
        | deferredErr e => exact pres_pop t hstk hP1
        | noFuel => exact pres_pop t hstk hP1
    -- runDeferredRetries
    · intro st t rid c
      rw [runDeferredRetries]
      rcases h1 : resolveInternal E f st t rid with ⟨st₁, r₁⟩
      try rw [h1]
      dsimp only
      have hP1 : Pres st st₁ := by
        have := ihI st t rid
        rw [h1] at this
        exact this
      cases r₁ with
      | ok v => exact presTrans hP1 (pres_pending st₁ _)
      | noFuel => exact hP1
      | deferredOk v => exact hP1
      | deferredErr e => exact hP1
      | err e1 =>
        dsimp only
        by_cases hc2 : (c.getD 0) ≥ 2
        · rw [if_pos hc2]
          exact hP1
        · rw [if_neg hc2]
          rcases h2 : resolveInternal E f st₁ t rid with ⟨st₂, r₂⟩
          try rw [h2]
          try dsimp only
          have hP2 : Pres st₁ st₂ := by
            have := ihI st₁ t rid
            rw [h2] at this
            exact this
          cases r₂ with
          | ok v => exact presTrans (presTrans hP1 hP2) (pres_pending st₂ _)
          | err e2 => exact presTrans hP1 hP2
          | deferredOk v => exact presTrans hP1 hP2
          | deferredErr e2 => exact presTrans hP1 hP2
          | noFuel => exact presTrans hP1 hP2
    -- resolveInternal
    · intro st t rid
      rw [resolveInternal_succ]
      cases hp : mapGet st.providers t with
      | none =>
        simp only [hp]
        cases t with
        | cls name =>
          dsimp only
          rcases har : tryAutoRegister E st name with ⟨stA, b⟩
          try rw [har]
          try dsimp only
          have hPA : Pres st stA := by
            have := pres_tryAutoRegister E st name hp
            rw [har] at this
            exact this
          cases b with
          | false => exact hPA
          | true => exact presTrans hPA (ihI stA (Token.cls name) rid)
        | str s' =>
          dsimp only
          exact presRefl st
      | some p =>
        simp only [hp]
        try dsimp only
        cases hv : p.useValue with
        | some v =>
          simp only [hv]
          exact presRefl st
        | none =>
          simp only [hv]
          cases hf : p.useFactory with
          | some ff =>
            cases ff with
            | fresh =>
              simp only [hf]
              exact pres_bumpInst st
            | const v =>
              simp only [hf]
              exact presRefl st
          | none =>
            simp only [hf]
            cases hc : p.useClass with
            | none =>
              simp only [hc]
              exact presRefl st
            | some target =>
              simp only [hc]
              cases hsc : p.scope.getD .singleton with
              | singleton =>
                simp only [hsc]
                exact ihS st t target
              | transient =>
                simp only [hsc]
                exact ihT st target rid
              | request =>
                simp only [hsc]
                cases rid with
                | some r => exact ihQ st t target r
                | none =>
                  dsimp only [generateRequestId]
                  exact presTrans (pres_genReqId st) (ihQ _ t target _)
    -- resolveSingleton
    · intro st t target
      rw [resolveSingleton]
      cases hm : mapGet st.singletons t with
      | some v =>
        simp only [hm]
        exact presRefl st
      | none =>
        simp only [hm]
        rcases hci : createInstance E f st target none with ⟨st₁, r⟩
        try rw [hci]
        dsimp only
        have hP1 : Pres st st₁ := by
          have := ihC st target none
          rw [hci] at this
          exact this
        cases r with
        | ok v =>
          exact presTrans hP1 (pres_cacheSingleton st₁ t v
            (createInstance_ok_bound E f st target none st₁ v hci))
        | err e => exact hP1
        | deferredOk v => exact hP1
        | deferredErr e => exact hP1
        | noFuel => exact hP1
    -- resolveTransient
    · intro st target rid
      rw [resolveTransient]
      exact ihC st target rid
    -- resolveRequest
    · intro st t target r
      rw [resolveRequest]
      dsimp only
      cases hm : mapGet st.requestInstances r with
      | some m0 =>
        simp only [hm, Option.getD_some]
        cases hmt : mapGet m0 t with
        | some v =>
          simp only [hmt]
          exact presRefl st
        | none =>
          simp only [hmt]
          rcases hci : createInstance E f st target (some r) with ⟨st₂, rr⟩
          try rw [hci]
          dsimp only
          have hP1 : Pres st st₂ := by
            have := ihC st target (some r)
            rw [hci] at this
            exact this
          cases rr with
          | ok v =>
            exact presTrans hP1 (pres_cacheRequest st₂ r t v
              (createInstance_ok_bound E f st target (some r) st₂ v hci))
          | err e => exact hP1
          | deferredOk v => exact hP1
          | deferredErr e => exact hP1
          | noFuel => exact hP1
      | none =>
        simp only [hm]
        have hPB : Pres st
            { st with requestInstances := mapSet st.requestInstances r [] } :=
          pres_newBucket st r
        simp only [mapGet_mapSet_self, Option.getD_some]
        simp only [mapGet]
        rcases hci : createInstance E f
          { st with requestInstances := mapSet st.requestInstances r [] }
          target (some r) with ⟨st₂, rr⟩
        try rw [hci]
        dsimp only
        have hP1 : Pres
            { st with requestInstances := mapSet st.requestInstances r [] }
            st₂ := by
          have := ihC
            { st with requestInstances := mapSet st.requestInstances r [] }
            target (some r)
          rw [hci] at this
          exact this
        cases rr with
        | ok v =>
          exact presTrans (presTrans hPB hP1) (pres_cacheRequest st₂ r t v
            (createInstance_ok_bound E f _ target (some r) st₂ v hci))
        | err e => exact presTrans hPB hP1
        | deferredOk v => exact presTrans hPB hP1
        | deferredErr e => exact presTrans hPB hP1
        | noFuel => exact presTrans hPB hP1
    -- createInstance
    · intro st target rid
      rw [createInstance]
      rcases hd : resolveDeps E f st (E.paramtypes target) rid with ⟨st₁, r⟩
      try rw [hd]
      dsimp only
      have hP1 : Pres st st₁ := by
        have := ihL st (E.paramtypes target) rid
        rw [hd] at this
        exact this
      cases r with
      | ok v => exact presTrans hP1 (pres_bumpInst st₁)
      | err e => exact hP1
      | deferredOk v => exact hP1
      | deferredErr e => exact hP1
      | noFuel => exact hP1
    -- resolveDeps
    · intro st deps rid
      cases deps with
      | nil =>
        rw [resolveDeps]
        exact presRefl st
      | cons d rest =>
        rw [resolveDeps]
        rcases h1 : resolve E f st (Token.cls d) rid with ⟨st₁, r⟩
        try rw [h1]
        dsimp only
        have hP1 : Pres st st₁ := by
          have := ihR st (Token.cls d) rid
          rw [h1] at this
          exact this
        cases r with
        | ok v => exact presTrans hP1 (ihL st₁ rest rid)
        | deferredOk v => exact presTrans hP1 (ihL st₁ rest rid)
        | deferredErr e => exact presTrans hP1 (ihL st₁ rest rid)
        | err e => exact hP1
        | noFuel => exact hP1

theorem runDeferredRetries_ne_ok (E : Env) (f : Nat) (st : ContainerState)
    (t : Token) (rid : Option String) (c : Option Nat) (v : Inst) :
    (runDeferredRetries E f st t rid c).2 ≠ .ok v := by
  cases f with
  | zero => rw [runDeferredRetries]; simp
  | succ f =>
    rw [runDeferredRetries]
    rcases h1 : resolveInternal E f st t rid with ⟨st₁, r₁⟩
    try rw [h1]
    dsimp only
    cases r₁ with
    | ok w => simp
    | noFuel => simp
    | deferredOk w => simp
    | deferredErr e => simp
    | err e1 =>
      dsimp only
      by_cases hc2 : (c.getD 0) ≥ 2
      · rw [if_pos hc2]; simp
      · rw [if_neg hc2]
        rcases h2 : resolveInternal E f st₁ t rid with ⟨st₂, r₂⟩
        try rw [h2]
        try dsimp only
        cases r₂ <;> simp

/-- Successful non-deferred resolution factors through `resolveInternal` on
the pushed stack, and the final state pops the token again. -/
theorem resolve_ok_elim (E : Env) (f : Nat) (st : ContainerState) (t : Token)
    (rid : Option String) (st' : ContainerState) (i : Inst)
    (hstk : t ∉ st.resolutionStack)
    (h : resolve E (f + 1) st t rid = (st', .ok i)) :
    ∃ st₂, resolveInternal E f
        { st with resolutionStack := setAdd st.resolutionStack t } t rid =
      (st₂, .ok i) ∧
      st' = { st₂ with resolutionStack := setDelete st₂.resolutionStack t } := by
  rw [resolve, if_neg hstk] at h
  dsimp only at h
  rcases hri : resolveInternal E f
    { st with resolutionStack := setAdd st.resolutionStack t } t rid
    with ⟨st₂, r⟩
  try rw [hri] at h
  try dsimp only at h
  cases r with
  | ok v =>
    dsimp only at h
    injection h with h1 h2
    injection h2 with h3
    exact ⟨st₂, by rw [h3], h1.symm⟩
  | err e =>
    dsimp only at h
    by_cases hdef : (st₂.enableDeferredResolution && isInitializationError e) = true
    · rw [if_pos hdef] at h
      rcases hds : handleDeferredSync E st₂ t e with ⟨st₃, step⟩
      rw [hds] at h
      dsimp only at h
      cases step with
      | fatal fe =>
        dsimp only at h
        injection h with h1 h2
        exact absurd h2 (by simp)
      | promise cap =>
        dsimp only at h
        have h2 := congrArg Prod.snd h
        dsimp only at h2
        exact absurd h2 (runDeferredRetries_ne_ok E f _ t rid cap i)
    · rw [if_neg hdef] at h
      injection h with h1 h2
      exact absurd h2 (by simp)
  | deferredOk v =>
    dsimp only at h
    injection h with h1 h2
    exact absurd h2 (by simp)
  | deferredErr e =>
    dsimp only at h
    injection h with h1 h2
    exact absurd h2 (by simp)
  | noFuel =>
    dsimp only at h
    injection h with h1 h2
    exact absurd h2 (by simp)

/-- A class provider dispatches `resolveInternal` to the singleton resolver
when its scope defaults to singleton. -/
theorem resolveInternal_class_singleton (E : Env) (f : Nat)
    (st : ContainerState) (t : Token) (rid : Option String) (p : Provider)
    (target : String)
    (hp : mapGet st.providers t = some p) (hv : p.useValue = none)
    (hf : p.useFactory = none) (hc : p.useClass = some target)
    (hsc : p.scope.getD .singleton = .singleton) :
    resolveInternal E (f + 1) st t rid = resolveSingleton E f st t target := by
  rw [resolveInternal_succ]
  simp only [hp, hv, hf, hc, hsc]

/-- A class provider with request scope and an explicit request id dispatches
to the request resolver. -/
theorem resolveInternal_class_request (E : Env) (f : Nat)
    (st : ContainerState) (t : Token) (r : String) (p : Provider)
    (target : String)
    (hp : mapGet st.providers t = some p) (hv : p.useValue = none)
    (hf : p.useFactory = none) (hc : p.useClass = some target)
    (hsc : p.scope.getD .singleton = .request) :
    resolveInternal E (f + 1) st t (some r) =
      resolveRequest E f st t target r := by
  rw [resolveInternal_succ]
  simp only [hp, hv, hf, hc, hsc]

/-- A class provider with request scope and no request id draws a fresh id
and dispatches to the request resolver with it. -/
theorem resolveInternal_class_request_gen (E : Env) (f : Nat)
    (st : ContainerState) (t : Token) (p : Provider) (target : String)
    (hp : mapGet st.providers t = some p) (hv : p.useValue = none)
    (hf : p.useFactory = none) (hc : p.useClass = some target)
    (hsc : p.scope.getD .singleton = .request) :
    resolveInternal E (f + 1) st t none =
      resolveRequest E f { st with nextReqId := st.nextReqId + 1 } t target
        (mkReqId st.nextReqId) := by
  rw [resolveInternal_succ]
  simp only [hp, hv, hf, hc, hsc]
  rfl

/-- A successful singleton resolution leaves the instance in the singleton
cache. -/
theorem resolveSingleton_ok_caches (E : Env) (f : Nat) (st : ContainerState)
    (t : Token) (target : String) (st' : ContainerState) (i : Inst)
    (h : resolveSingleton E f st t target = (st', .ok i)) :
    mapGet st'.singletons t = some i := by
  cases f with
  | zero => rw [resolveSingleton] at h; injection h with h1 h2; exact absurd h2 (by simp)
  | succ f =>
    rw [resolveSingleton] at h
    cases hm : mapGet st.singletons t with
    | some v =>
      rw [hm] at h
      dsimp only at h
      injection h with h1 h2
      injection h2 with h3
      rw [← h1, hm, h3]
    | none =>
      rw [hm] at h
      dsimp only at h
      rcases hci : createInstance E f st target none with ⟨st₁, r⟩
      rw [hci] at h
      dsimp only at h
      cases r with
      | ok v =>
        injection h with h1 h2
        injection h2 with h3
        rw [← h1, ← h3]
        exact mapGet_mapSet_self _ _ _
      | err e => injection h with h1 h2; exact absurd h2 (by simp)
      | deferredOk v => injection h with h1 h2; exact absurd h2 (by simp)
      | deferredErr e => injection h with h1 h2; exact absurd h2 (by simp)
      | noFuel => injection h with h1 h2; exact absurd h2 (by simp)

/-- A successful request resolution leaves the instance in the request's
bucket. -/
theorem resolveRequest_ok_caches (E : Env) (f : Nat) (st : ContainerState)
    (t : Token) (target : String) (r : String) (st' : ContainerState) (i : Inst)
    (h : resolveRequest E f st t target r = (st', .ok i)) :
    mapGet ((mapGet st'.requestInstances r).getD []) t = some i := by
  cases f with
  | zero =>
    rw [resolveRequest] at h
    injection h with h1 h2
    exact absurd h2 (by simp)
  | succ f =>
    rw [resolveRequest] at h
    dsimp only at h
    cases hm : mapGet st.requestInstances r with
    | some m0 =>
      simp only [hm, Option.getD_some] at h
      cases hmt : mapGet m0 t with
      | some v =>
        rw [hmt] at h
        dsimp only at h
        injection h with h1 h2
        injection h2 with h3
        rw [← h1, hm]
        simp only [Option.getD_some]
        rw [hmt, h3]
      | none =>
        rw [hmt] at h
        dsimp only at h
        rcases hci : createInstance E f st target (some r) with ⟨st₂, rr⟩
        try rw [hci] at h
        try dsimp only at h
        cases rr with
        | ok v =>
          try dsimp only at h
          injection h with h1 h2
          injection h2 with h3
          rw [← h1]
          simp only [mapGet_mapSet_self, Option.getD_some]
          rw [← h3]
          try exact mapGet_mapSet_self _ _ _
        | err e =>
          try dsimp only at h
          first
          | (injection h with h1 h2
             exact absurd h2 (by simp))
          | injection h
        | deferredOk v =>
          try dsimp only at h
          first
          | (injection h with h1 h2
             exact absurd h2 (by simp))
          | injection h
        | deferredErr e =>
          try dsimp only at h
          first
          | (injection h with h1 h2
             exact absurd h2 (by simp))
          | injection h
        | noFuel =>
          try dsimp only at h
          first
          | (injection h with h1 h2
             exact absurd h2 (by simp))
          | injection h
    | none =>
      simp only [hm, mapGet_mapSet_self, Option.getD_some] at h
      rw [show (mapGet ([] : List (Token × Inst)) t) = none from rfl] at h
      dsimp only at h
      rcases hci : createInstance E f
        { st with requestInstances := mapSet st.requestInstances r [] }
        target (some r) with ⟨st₂, rr⟩
      try rw [hci] at h
      try dsimp only at h
      cases rr with
      | ok v =>
        try dsimp only at h
        injection h with h1 h2
        injection h2 with h3
        rw [← h1]
        simp only [mapGet_mapSet_self, Option.getD_some]
        rw [← h3]
        try exact mapGet_mapSet_self _ _ _
      | err e =>
        try dsimp only at h
        first
        | (injection h with h1 h2
           exact absurd h2 (by simp))
        | injection h
      | deferredOk v =>
        try dsimp only at h
        first
        | (injection h with h1 h2
           exact absurd h2 (by simp))
        | injection h
      | deferredErr e =>
        try dsimp only at h
        first
        | (injection h with h1 h2
           exact absurd h2 (by simp))
        | injection h
      | noFuel =>
        try dsimp only at h
        first
        | (injection h with h1 h2
           exact absurd h2 (by simp))
        | injection h

/-- A resolve call on a singleton class token whose instance is already
cached returns the cached instance and leaves the state unchanged. -/
theorem resolve_cached_singleton (E : Env) (g : Nat) (st : ContainerState)
    (t : Token) (target : String) (p : Provider) (i : Inst) (rid : Option String)
    (hstk : t ∉ st.resolutionStack)
    (hp : mapGet st.providers t = some p) (hv : p.useValue = none)
    (hf : p.useFactory = none) (hc : p.useClass = some target)
    (hsc : p.scope.getD .singleton = .singleton)
    (hcache : mapGet st.singletons t = some i) :
    resolve E (g + 1 + 1 + 1) st t rid = (st, .ok i) := by
  have hRI : resolveInternal E (g + 1 + 1)
      { st with resolutionStack := setAdd st.resolutionStack t } t rid =
      ({ st with resolutionStack := setAdd st.resolutionStack t }, .ok i) := by
    rw [resolveInternal_class_singleton E (g + 1)
      { st with resolutionStack := setAdd st.resolutionStack t } t rid p target
      hp hv hf hc hsc]
    rw [resolveSingleton]
    dsimp only
    simp only [hcache]
  rw [resolve, if_neg hstk]
  dsimp only
  rw [hRI]
  dsimp only
  rw [show setDelete (setAdd st.resolutionStack t) t = st.resolutionStack from
    setDelete_push _ _ hstk]

/-- A resolve call on a request-scoped class token whose instance is cached
under the given request id returns the cached instance and leaves the state
unchanged. -/
theorem resolve_cached_request (E : Env) (g : Nat) (st : ContainerState)
    (t : Token) (target : String) (p : Provider) (i : Inst) (R : String)
    (m : List (Token × Inst))
    (hstk : t ∉ st.resolutionStack)
    (hp : mapGet st.providers t = some p) (hv : p.useValue = none)
    (hf : p.useFactory = none) (hc : p.useClass = some target)
    (hsc : p.scope.getD .singleton = .request)
    (hbucket : mapGet st.requestInstances R = some m)
    (hhit : mapGet m t = some i) :
    resolve E (g + 1 + 1 + 1) st t (some R) = (st, .ok i) := by
  have hRI : resolveInternal E (g + 1 + 1)
      { st with resolutionStack := setAdd st.resolutionStack t } t (some R) =
      ({ st with resolutionStack := setAdd st.resolutionStack t }, .ok i) := by
    rw [resolveInternal_class_request E (g + 1)
      { st with resolutionStack := setAdd st.resolutionStack t } t R p target
      hp hv hf hc hsc]
    rw [resolveRequest]
    dsimp only
    simp only [hbucket, Option.getD_some, hhit]
  rw [resolve, if_neg hstk]
  dsimp only
  rw [hRI]
  dsimp only
  rw [show setDelete (setAdd st.resolutionStack t) t = st.resolutionStack from
    setDelete_push _ _ hstk]

/-- A constructed instance is at least the allocation counter of the state
construction started in. -/
theorem createInstance_ok_lower (E : Env) (f : Nat) (st : ContainerState)
    (target : String) (rid : Option String) (st' : ContainerState) (i : Inst)
    (h : createInstance E f st target rid = (st', .ok i)) : st.nextInst ≤ i := by
  cases f with
  | zero =>
    rw [createInstance] at h
    injection h with h1 h2
    exact absurd h2 (by simp)
  | succ f =>
    rw [createInstance] at h
    rcases hd : resolveDeps E f st (E.paramtypes target) rid with ⟨stD, r⟩
    try rw [hd] at h
    try dsimp only at h
    cases r with
    | ok v =>
      try dsimp only at h
      injection h with h1 h2
      injection h2 with h3
      rw [← h3]
      exact ((presAll E f).2.2.2.2.2.2.2 st (E.paramtypes target) rid).instMono.trans
        (by rw [hd])
    | err e =>
      first
      | (injection h with h1 h2
         exact absurd h2 (by simp))
      | injection h
    | deferredOk v =>
      first
      | (injection h with h1 h2
         exact absurd h2 (by simp))
      | injection h
    | deferredErr e =>
      first
      | (injection h with h1 h2
         exact absurd h2 (by simp))
      | injection h
    | noFuel =>
      first
      | (injection h with h1 h2
         exact absurd h2 (by simp))
      | injection h

/-- A request resolution that misses its bucket allocates a fresh instance:
the result is at least the starting allocation counter. -/
theorem resolveRequest_ok_fresh (E : Env) (f : Nat) (st : ContainerState)
    (t : Token) (target : String) (r : String) (st' : ContainerState) (i : Inst)
    (hmiss : mapGet ((mapGet st.requestInstances r).getD []) t = none)
    (h : resolveRequest E f st t target r = (st', .ok i)) :
    st.nextInst ≤ i := by
  cases f with
  | zero =>
    rw [resolveRequest] at h
    injection h with h1 h2
    exact absurd h2 (by simp)
  | succ f =>
    rw [resolveRequest] at h
    dsimp only at h
    cases hm : mapGet st.requestInstances r with
    | some m0 =>
      simp only [hm, Option.getD_some] at h
      rw [hm] at hmiss
      simp only [Option.getD_some] at hmiss
      rw [hmiss] at h
      dsimp only at h
      rcases hci : createInstance E f st target (some r) with ⟨st₂, rr⟩
      try rw [hci] at h
      try dsimp only at h
      cases rr with
      | ok v =>
        try dsimp only at h
        injection h with h1 h2
        injection h2 with h3
        rw [← h3]
        exact createInstance_ok_lower E f st target (some r) st₂ v hci
      | err e =>
        injection h with h1 h2
        exact absurd h2 (by simp)
      | deferredOk v =>
        injection h with h1 h2
        exact absurd h2 (by simp)
      | deferredErr e =>
        injection h with h1 h2
        exact absurd h2 (by simp)
      | noFuel =>
        injection h with h1 h2
        exact absurd h2 (by simp)
    | none =>
      simp only [hm, mapGet_mapSet_self, Option.getD_some] at h
      rw [show (mapGet ([] : List (Token × Inst)) t) = none from rfl] at h
      dsimp only at h
      rcases hci : createInstance E f
        { st with requestInstances := mapSet st.requestInstances r [] }
        target (some r) with ⟨st₂, rr⟩
      try rw [hci] at h
      try dsimp only at h
      cases rr with
      | ok v =>
        try dsimp only at h
        injection h with h1 h2
        injection h2 with h3
        rw [← h3]
        exact createInstance_ok_lower E f
          { st with requestInstances := mapSet st.requestInstances r [] }
          target (some r) st₂ v hci
      | err e =>
        injection h with h1 h2
        exact absurd h2 (by simp)
      | deferredOk v =>
        injection h with h1 h2
        exact absurd h2 (by simp)
      | deferredErr e =>
        injection h with h1 h2
        exact absurd h2 (by simp)
      | noFuel =>
        injection h with h1 h2
        exact absurd h2 (by simp)

/-- Under bounded caches, a successful request resolution returns an
instance allocated before the resulting counter. -/
theorem resolveRequest_ok_upper (E : Env) (f : Nat) (st : ContainerState)
    (t : Token) (target : String) (r : String) (st' : ContainerState) (i : Inst)
    (hb : IdsB st)
    (h : resolveRequest E f st t target r = (st', .ok i)) :
    i < st'.nextInst := by
  cases f with
  | zero =>
    rw [resolveRequest] at h
    injection h with h1 h2
    exact absurd h2 (by simp)
  | succ f =>
    rw [resolveRequest] at h
    dsimp only at h
    cases hm : mapGet st.requestInstances r with
    | some m0 =>
      simp only [hm, Option.getD_some] at h
      cases hmt : mapGet m0 t with
      | some v =>
        rw [hmt] at h
        dsimp only at h
        injection h with h1 h2
        injection h2 with h3
        rw [← h1, ← h3]
        exact hb.2 (r, m0) (mapGet_mem _ _ _ hm) (t, v) (mapGet_mem _ _ _ hmt)
      | none =>
        rw [hmt] at h
        dsimp only at h
        rcases hci : createInstance E f st target (some r) with ⟨st₂, rr⟩
        try rw [hci] at h
        try dsimp only at h
        cases rr with
        | ok v =>
          try dsimp only at h
          injection h with h1 h2
          injection h2 with h3
          rw [← h1, ← h3]
          exact createInstance_ok_bound E f st target (some r) st₂ v hci
        | err e =>
          injection h with h1 h2
          exact absurd h2 (by simp)
        | deferredOk v =>
          injection h with h1 h2
          exact absurd h2 (by simp)
        | deferredErr e =>
          injection h with h1 h2
          exact absurd h2 (by simp)
        | noFuel =>
          injection h with h1 h2
          exact absurd h2 (by simp)
    | none =>
      simp only [hm, mapGet_mapSet_self, Option.getD_some] at h
      rw [show (mapGet ([] : List (Token × Inst)) t) = none from rfl] at h
      dsimp only at h
      rcases hci : createInstance E f
        { st with requestInstances := mapSet st.requestInstances r [] }
        target (some r) with ⟨st₂, rr⟩
      try rw [hci] at h
      try dsimp only at h
      cases rr with
      | ok v =>
        try dsimp only at h
        injection h with h1 h2
        injection h2 with h3
        rw [← h1, ← h3]
        exact createInstance_ok_bound E f _ target (some r) st₂ v hci
      | err e =>
        injection h with h1 h2
        exact absurd h2 (by simp)
      | deferredOk v =>
        injection h with h1 h2
        exact absurd h2 (by simp)
      | deferredErr e =>
        injection h with h1 h2
        exact absurd h2 (by simp)
      | noFuel =>
        injection h with h1 h2
        exact absurd h2 (by simp)

/-- A resolve call on a `useValue` provider returns the stored value and
leaves the state unchanged. -/
theorem resolve_value (E : Env) (g : Nat) (st : ContainerState) (t : Token)
    (p : Provider) (v : Inst) (rid : Option String)
    (hstk : t ∉ st.resolutionStack)
    (hp : mapGet st.providers t = some p) (hv : p.useValue = some v) :
    resolve E (g + 1 + 1) st t rid = (st, .ok v) := by
  have hRI : resolveInternal E (g + 1)
      { st with resolutionStack := setAdd st.resolutionStack t } t rid =
      ({ st with resolutionStack := setAdd st.resolutionStack t }, .ok v) := by
    rw [resolveInternal_succ]
    simp only [hp, hv]
  rw [resolve, if_neg hstk]
  dsimp only
  rw [hRI]
  dsimp only
  rw [show setDelete (setAdd st.resolutionStack t) t = st.resolutionStack from
    setDelete_push _ _ hstk]

/-- A resolve call on a fresh-allocating `useFactory` provider returns a new
instance on every call and only bumps the allocation counter. -/
theorem resolve_factory_fresh (E : Env) (g : Nat) (st : ContainerState)
    (t : Token) (p : Provider) (rid : Option String)
    (hstk : t ∉ st.resolutionStack)
    (hp : mapGet st.providers t = some p) (hv : p.useValue = none)
    (hf : p.useFactory = some .fresh) :
    resolve E (g + 1 + 1) st t rid =
      ({ st with nextInst := st.nextInst + 1 }, .ok st.nextInst) := by
  have hRI : resolveInternal E (g + 1)
      { st with resolutionStack := setAdd st.resolutionStack t } t rid =
      ({ st with resolutionStack := setAdd st.resolutionStack t, nextInst := st.nextInst + 1 }, .ok st.nextInst) := by
    rw [resolveInternal_succ]
    simp only [hp, hv, hf]
  rw [resolve, if_neg hstk]
  dsimp only
  rw [hRI]
  dsimp only
  rw [show setDelete (setAdd st.resolutionStack t) t = st.resolutionStack from
    setDelete_push _ _ hstk]

/-- A successful resolve on a singleton class provider caches the returned
instance by token. -/
theorem resolve_ok_singleton_caches (E : Env) (f : Nat) (st : ContainerState)
    (t : Token) (rid : Option String) (st₁ : ContainerState) (i : Inst)
    (p : Provider) (target : String)
    (hstk : t ∉ st.resolutionStack)
    (hp : mapGet st.providers t = some p) (hv : p.useValue = none)
    (hf : p.useFactory = none) (hc : p.useClass = some target)
    (hsc : p.scope.getD .singleton = .singleton)
    (h1 : resolve E f st t rid = (st₁, .ok i)) :
    mapGet st₁.singletons t = some i := by
  cases f with
  | zero =>
    rw [resolve] at h1
    injection h1 with a b
    exact absurd b (by simp)
  | succ f =>
    obtain ⟨st₂, hI, hpop⟩ := resolve_ok_elim E f st t rid st₁ i hstk h1
    cases f with
    | zero =>
      rw [resolveInternal] at hI
      injection hI with a b
      exact absurd b (by simp)
    | succ f' =>
      rw [resolveInternal_class_singleton E f'
        { st with resolutionStack := setAdd st.resolutionStack t }
        t rid p target hp hv hf hc hsc] at hI
      have := resolveSingleton_ok_caches E f' _ t target st₂ i hI
      rw [hpop]
      exact this

/-- A successful resolve on a request class provider with an explicit id
caches the returned instance under `(id, token)`. -/
theorem resolve_ok_request_caches (E : Env) (f : Nat) (st : ContainerState)
    (t : Token) (R : String) (st₁ : ContainerState) (i : Inst)
    (p : Provider) (target : String)
    (hstk : t ∉ st.resolutionStack)
    (hp : mapGet st.providers t = some p) (hv : p.useValue = none)
    (hf : p.useFactory = none) (hc : p.useClass = some target)
    (hsc : p.scope.getD .singleton = .request)
    (h1 : resolve E f st t (some R) = (st₁, .ok i)) :
    mapGet ((mapGet st₁.requestInstances R).getD []) t = some i := by
  cases f with
  | zero =>
    rw [resolve] at h1
    injection h1 with a b
    exact absurd b (by simp)
  | succ f =>
    obtain ⟨st₂, hI, hpop⟩ := resolve_ok_elim E f st t (some R) st₁ i hstk h1
    cases f with
    | zero =>
      rw [resolveInternal] at hI
      injection hI with a b
      exact absurd b (by simp)
    | succ f' =>
      rw [resolveInternal_class_request E f'
        { st with resolutionStack := setAdd st.resolutionStack t }
        t R p target hp hv hf hc hsc] at hI
      have := resolveRequest_ok_caches E f' _ t target R st₂ i hI
      rw [hpop]
      exact this

/-- Under bounded caches, a successful request-scoped resolve returns an
instance allocated before the resulting counter. -/
theorem resolve_ok_request_upper (E : Env) (f : Nat) (st : ContainerState)
    (t : Token) (R : String) (st₁ : ContainerState) (i : Inst)
    (p : Provider) (target : String)
    (hstk : t ∉ st.resolutionStack) (hb : IdsB st)
    (hp : mapGet st.providers t = some p) (hv : p.useValue = none)
    (hf : p.useFactory = none) (hc : p.useClass = some target)
    (hsc : p.scope.getD .singleton = .request)
    (h1 : resolve E f st t (some R) = (st₁, .ok i)) :
    i < st₁.nextInst := by
  cases f with
  | zero =>
    rw [resolve] at h1
    injection h1 with a b
    exact absurd b (by simp)
  | succ f =>
    obtain ⟨st₂, hI, hpop⟩ := resolve_ok_elim E f st t (some R) st₁ i hstk h1
    cases f with
    | zero =>
      rw [resolveInternal] at hI
      injection hI with a b
      exact absurd b (by simp)
    | succ f' =>
      rw [resolveInternal_class_request E f'
        { st with resolutionStack := setAdd st.resolutionStack t }
        t R p target hp hv hf hc hsc] at hI
      have hb' : IdsB { st with resolutionStack := setAdd st.resolutionStack t } := hb
      have := resolveRequest_ok_upper E f' _ t target R st₂ i hb' hI
      rw [hpop]
      exact this

/-- A request-scoped resolve that misses the id's bucket returns a freshly
allocated instance: at least the starting allocation counter. -/
theorem resolve_ok_request_lower (E : Env) (f : Nat) (st : ContainerState)
    (t : Token) (R : String) (st₁ : ContainerState) (i : Inst)
    (p : Provider) (target : String)
    (hstk : t ∉ st.resolutionStack)
    (hmiss : mapGet ((mapGet st.requestInstances R).getD []) t = none)
    (hp : mapGet st.providers t = some p) (hv : p.useValue = none)
    (hf : p.useFactory = none) (hc : p.useClass = some target)
    (hsc : p.scope.getD .singleton = .request)
    (h1 : resolve E f st t (some R) = (st₁, .ok i)) :
    st.nextInst ≤ i := by
  cases f with
  | zero =>
    rw [resolve] at h1
    injection h1 with a b
    exact absurd b (by simp)
  | succ f =>
    obtain ⟨st₂, hI, hpop⟩ := resolve_ok_elim E f st t (some R) st₁ i hstk h1
    cases f with
    | zero =>
      rw [resolveInternal] at hI
      injection hI with a b
      exact absurd b (by simp)
    | succ f' =>
      rw [resolveInternal_class_request E f'
        { st with resolutionStack := setAdd st.resolutionStack t }
        t R p target hp hv hf hc hsc] at hI
      have hmiss' : mapGet ((mapGet ({ st with resolutionStack := setAdd st.resolutionStack t } : ContainerState).requestInstances R).getD []) t = none := hmiss
      exact resolveRequest_ok_fresh E f' { st with resolutionStack := setAdd st.resolutionStack t } t target R st₂ i hmiss' hI

/-- A request-scoped resolve with no id draws the next request id, caches
the instance under it, and allocates freshly. -/
theorem resolve_ok_request_gen (E : Env) (f : Nat) (st : ContainerState)
    (t : Token) (st₁ : ContainerState) (i : Inst) (p : Provider)
    (target : String)
    (hstk : t ∉ st.resolutionStack)
    (hfree : mapGet st.requestInstances (mkReqId st.nextReqId) = none)
    (hp : mapGet st.providers t = some p) (hv : p.useValue = none)
    (hf : p.useFactory = none) (hc : p.useClass = some target)
    (hsc : p.scope.getD .singleton = .request)
    (h1 : resolve E f st t none = (st₁, .ok i)) :
    mapGet ((mapGet st₁.requestInstances (mkReqId st.nextReqId)).getD []) t =
      some i ∧ st.nextInst ≤ i := by
  cases f with
  | zero =>
    rw [resolve] at h1
    injection h1 with a b
    exact absurd b (by simp)
  | succ f =>
    obtain ⟨st₂, hI, hpop⟩ := resolve_ok_elim E f st t none st₁ i hstk h1
    cases f with
    | zero =>
      rw [resolveInternal] at hI
      injection hI with a b
      exact absurd b (by simp)
    | succ f' =>
      rw [resolveInternal_class_request_gen E f'
        { st with resolutionStack := setAdd st.resolutionStack t }
        t p target hp hv hf hc hsc] at hI
      have hI' : resolveRequest E f'
          ({ st with resolutionStack := setAdd st.resolutionStack t, nextReqId := st.nextReqId + 1 } : ContainerState)
          t target (mkReqId st.nextReqId) = (st₂, .ok i) := hI
      have hmiss : mapGet ((mapGet
          ({ st with resolutionStack := setAdd st.resolutionStack t, nextReqId := st.nextReqId + 1 } : ContainerState).requestInstances
          (mkReqId st.nextReqId)).getD []) t = none := by
        show mapGet ((mapGet st.requestInstances (mkReqId st.nextReqId)).getD [])
          t = none
        rw [hfree]
        rfl
      constructor
      · have := resolveRequest_ok_caches E f' _ t target (mkReqId st.nextReqId)
          st₂ i hI'
        rw [hpop]
        exact this
      · exact resolveRequest_ok_fresh E f'
          ({ st with resolutionStack := setAdd st.resolutionStack t, nextReqId := st.nextReqId + 1 } : ContainerState)
          t target (mkReqId st.nextReqId) st₂ i hmiss hI'

/-- An instance found in a request bucket of a bounded state was allocated
before the state's counter. -/
theorem IdsB_bucket_lt (st : ContainerState) (R : String) (t : Token)
    (i : Inst)
    (h : mapGet ((mapGet st.requestInstances R).getD []) t = some i)
    (hb : IdsB st) : i < st.nextInst := by
  cases hbk : mapGet st.requestInstances R with
  | none =>
    rw [hbk] at h
    simp [mapGet] at h
  | some m =>
    rw [hbk] at h
    simp only [Option.getD_some] at h
    exact hb.2 (R, m) (mapGet_mem _ _ _ hbk) (t, i) (mapGet_mem _ _ _ h)

/-- C1: for a class provider under singleton scope two successive resolves
return the identical instance, and a `useValue` provider always returns the
stored value; but a fresh `useFactory` provider registered under singleton
scope returns a distinct new instance on each resolve, so caching is not
uniform across provider strategies. -/
theorem singleton_caching_by_strategy (E : Env) (st : ContainerState)
    (t : Token) (p : Provider)
    (hstk : t ∉ st.resolutionStack)
    (hp : mapGet st.providers t = some p) :
    (∀ target f rid rid₂ st₁ i,
      p.useValue = none → p.useFactory = none → p.useClass = some target →
      p.scope.getD .singleton = .singleton →
      resolve E f st t rid = (st₁, .ok i) →
      ∀ g, resolve E (g + 1 + 1 + 1) st₁ t rid₂ = (st₁, .ok i)) ∧
    (∀ v, p.useValue = some v →
      ∀ g rid, resolve E (g + 1 + 1) st t rid = (st, .ok v)) ∧
    (p.useValue = none → p.useFactory = some .fresh →
      ∀ g rid,
        (resolve E (g + 1 + 1) st t rid).2 = .ok st.nextInst ∧
        (resolve E (g + 1 + 1) (resolve E (g + 1 + 1) st t rid).1 t rid).2 =
          .ok (st.nextInst + 1)) := by
  refine ⟨?_, ?_, ?_⟩
  · intro target f rid rid₂ st₁ i hv hf hc hsc h1 g
    have hpres : Pres st st₁ := by
      have := (presAll E f).1 st t rid
      rw [h1] at this
      exact this
    have hstk₁ : t ∉ st₁.resolutionStack := by
      rw [hpres.stack]
      exact hstk
    have hp₁ : mapGet st₁.providers t = some p := hpres.providers t p hp
    have hcache := resolve_ok_singleton_caches E f st t rid st₁ i p target
      hstk hp hv hf hc hsc h1
    exact resolve_cached_singleton E g st₁ t target p i rid₂ hstk₁ hp₁
      hv hf hc hsc hcache
  · intro v hv g rid
    exact resolve_value E g st t p v rid hstk hp hv
  · intro hv hf g rid
    have h1 := resolve_factory_fresh E g st t p rid hstk hp hv hf
    have hstk' : t ∉ ({ st with nextInst := st.nextInst + 1 } :
        ContainerState).resolutionStack := hstk
    have hp' : mapGet ({ st with nextInst := st.nextInst + 1 } :
        ContainerState).providers t = some p := hp
    have h2 := resolve_factory_fresh E g
      { st with nextInst := st.nextInst + 1 } t p rid hstk' hp' hv hf
    constructor
    · rw [h1]
    · rw [h1]
      dsimp only
      rw [h2]

/-- C4: for a request-scoped class provider, a second resolve with the same
request id returns the identical cached instance; a resolve under a request
id whose bucket does not hold the token returns a distinct instance; and two
resolves with no request id each generate a fresh id and return distinct
instances. -/
theorem request_scope_identity (E : Env) (st : ContainerState) (t : Token)
    (p : Provider) (target : String)
    (hstk : t ∉ st.resolutionStack) (hb : IdsB st)
    (hp : mapGet st.providers t = some p) (hv : p.useValue = none)
    (hf : p.useFactory = none) (hc : p.useClass = some target)
    (hsc : p.scope.getD .singleton = .request) :
    (∀ f R st₁ i, resolve E f st t (some R) = (st₁, .ok i) →
      ∀ g, resolve E (g + 1 + 1 + 1) st₁ t (some R) = (st₁, .ok i)) ∧
    (∀ f R st₁ i₁, resolve E f st t (some R) = (st₁, .ok i₁) →
      ∀ R₂, mapGet ((mapGet st₁.requestInstances R₂).getD []) t = none →
      ∀ f₂ st₂ i₂, resolve E f₂ st₁ t (some R₂) = (st₂, .ok i₂) → i₁ ≠ i₂) ∧
    (∀ f st₁ i₁, mapGet st.requestInstances (mkReqId st.nextReqId) = none →
      resolve E f st t none = (st₁, .ok i₁) →
      mapGet st₁.requestInstances (mkReqId st₁.nextReqId) = none →
      ∀ f₂ st₂ i₂, resolve E f₂ st₁ t none = (st₂, .ok i₂) → i₁ ≠ i₂) := by
  refine ⟨?_, ?_, ?_⟩
  · intro f R st₁ i h1 g
    have hpres : Pres st st₁ := by
      have := (presAll E f).1 st t (some R)
      rw [h1] at this
      exact this
    have hstk₁ : t ∉ st₁.resolutionStack := by
      rw [hpres.stack]
      exact hstk
    have hp₁ : mapGet st₁.providers t = some p := hpres.providers t p hp
    have hcache := resolve_ok_request_caches E f st t R st₁ i p target
      hstk hp hv hf hc hsc h1
    cases hbk : mapGet st₁.requestInstances R with
    | none =>
      rw [hbk] at hcache
      simp [mapGet] at hcache
    | some m =>
      rw [hbk] at hcache
      simp only [Option.getD_some] at hcache
      exact resolve_cached_request E g st₁ t target p i R m hstk₁ hp₁
        hv hf hc hsc hbk hcache
  · intro f R st₁ i₁ h1 R₂ hmiss f₂ st₂ i₂ h2
    have hpres : Pres st st₁ := by
      have := (presAll E f).1 st t (some R)
      rw [h1] at this
      exact this
    have hup := resolve_ok_request_upper E f st t R st₁ i₁ p target
      hstk hb hp hv hf hc hsc h1
    have hstk₁ : t ∉ st₁.resolutionStack := by
      rw [hpres.stack]
      exact hstk
    have hp₁ : mapGet st₁.providers t = some p := hpres.providers t p hp
    have hlow := resolve_ok_request_lower E f₂ st₁ t R₂ st₂ i₂ p target
      hstk₁ hmiss hp₁ hv hf hc hsc h2
    exact fun he => Nat.lt_irrefl i₂ (Nat.lt_of_lt_of_le (he ▸ hup) hlow)
  · intro f st₁ i₁ hfree h1 hfree₂ f₂ st₂ i₂ h2
    have hpres : Pres st st₁ := by
      have := (presAll E f).1 st t none
      rw [h1] at this
      exact this
    obtain ⟨hcach, _⟩ := resolve_ok_request_gen E f st t st₁ i₁ p target
      hstk hfree hp hv hf hc hsc h1
    have hb₁ : IdsB st₁ := hpres.bounded hb
    have hup : i₁ < st₁.nextInst :=
      IdsB_bucket_lt st₁ (mkReqId st.nextReqId) t i₁ hcach hb₁
    have hstk₁ : t ∉ st₁.resolutionStack := by
      rw [hpres.stack]
      exact hstk
    have hp₁ : mapGet st₁.providers t = some p := hpres.providers t p hp
    obtain ⟨_, hlow⟩ := resolve_ok_request_gen E f₂ st₁ t st₂ i₂ p target
      hstk₁ hfree₂ hp₁ hv hf hc hsc h2
    exact fun he => Nat.lt_irrefl i₂ (Nat.lt_of_lt_of_le (he ▸ hup) hlow)

/-- C10 counterexample: a no-id resolve of a request-scoped service whose
dependency chain passes through a singleton and reaches another
request-scoped service creates two request buckets, so `activeRequests`
grows by 2, not by exactly 1, in one resolve call. -/
theorem request_noid_adds_single_bucket_counterexample :
    (getStats c10State).activeRequests = 0 ∧
    (resolve c10Env 20 c10State (Token.cls "ManagerService") none).2.isOk = true ∧
    (getStats (resolve c10Env 20 c10State
      (Token.cls "ManagerService") none).1).activeRequests = 2 := by
  constructor
  · rfl
  constructor
  · decide
  · decide

/-- C10 (amended): a no-id resolve of a request-scoped class provider caches
the instance under the freshly generated request id, grows `activeRequests`
by at least one, and the new bucket survives any `clearRequestInstances`
call with a different key. -/
theorem request_noid_caches_under_generated_id (E : Env) (st : ContainerState)
    (t : Token) (p : Provider) (target : String)
    (hstk : t ∉ st.resolutionStack)
    (hfree : mapGet st.requestInstances (mkReqId st.nextReqId) = none)
    (hp : mapGet st.providers t = some p) (hv : p.useValue = none)
    (hf : p.useFactory = none) (hc : p.useClass = some target)
    (hsc : p.scope.getD .singleton = .request) :
    ∀ f st₁ i, resolve E f st t none = (st₁, .ok i) →
      mapGet ((mapGet st₁.requestInstances (mkReqId st.nextReqId)).getD []) t
        = some i ∧
      (getStats st).activeRequests + 1 ≤ (getStats st₁).activeRequests ∧
      (∀ k, k ≠ mkReqId st.nextReqId →
        mapGet (clearRequestInstances st₁ k).requestInstances
            (mkReqId st.nextReqId) =
          mapGet st₁.requestInstances (mkReqId st.nextReqId)) := by
  intro f st₁ i h1
  obtain ⟨hcach, _⟩ := resolve_ok_request_gen E f st t st₁ i p target
    hstk hfree hp hv hf hc hsc h1
  refine ⟨hcach, ?_, ?_⟩
  · have hpres : Pres st st₁ := by
      have := (presAll E f).1 st t none
      rw [h1] at this
      exact this
    obtain ⟨newKeys, hkeys⟩ := hpres.keys
    have hmem : mkReqId st.nextReqId ∈ reqKeys st₁ := by
      cases hbk : mapGet st₁.requestInstances (mkReqId st.nextReqId) with
      | none =>
        rw [hbk] at hcach
        simp [mapGet] at hcach
      | some m =>
        exact List.mem_map_of_mem _ (mapGet_mem _ _ _ hbk)
    have hnot : mkReqId st.nextReqId ∉ reqKeys st := by
      intro hin
      obtain ⟨kv, hkv, hkveq⟩ := List.mem_map.1 hin
      exact (mapGet_eq_none_forall _ _ hfree kv hkv) hkveq
    have hne : newKeys ≠ [] := by
      intro hnil
      rw [hnil, List.append_nil] at hkeys
      rw [hkeys] at hmem
      exact hnot hmem
    have hlen : (reqKeys st₁).length = (reqKeys st).length + newKeys.length := by
      rw [hkeys, List.length_append]
    have hpos : 0 < newKeys.length := List.length_pos.2 hne
    show st.requestInstances.length + 1 ≤ st₁.requestInstances.length
    have e1 : (reqKeys st).length = st.requestInstances.length :=
      List.length_map _ _
    have e2 : (reqKeys st₁).length = st₁.requestInstances.length :=
      List.length_map _ _
    omega
  · intro k hk
    show mapGet (mapDelete st₁.requestInstances k) (mkReqId st.nextReqId) = _
    exact mapGet_mapDelete_ne _ _ _ (Ne.symm hk)

set_option maxRecDepth 10000 in
/-- Witness for C1 at the `ServiceC` singleton of the concrete container. -/
theorem singleton_caching_by_strategy_witness :
    (Token.cls "ServiceC") ∉ cdState.resolutionStack ∧
    resolve cdEnv 3 (resolve cdEnv 20 cdState (Token.cls "ServiceC") none).1
        (Token.cls "ServiceC") none =
      ((resolve cdEnv 20 cdState (Token.cls "ServiceC") none).1, .ok 0) := by
  refine ⟨by decide, ?_⟩
  exact (singleton_caching_by_strategy cdEnv cdState (Token.cls "ServiceC")
      { useClass := some "ServiceC", scope := some .singleton }
      (by decide) (by decide)).1 "ServiceC" 20 none none
      (resolve cdEnv 20 cdState (Token.cls "ServiceC") none).1 0
      rfl rfl rfl (by decide) (by decide) 0

set_option maxRecDepth 10000 in
/-- Witness for C4 at the concrete request-scoped `SessionService`. -/
theorem request_scope_identity_witness :
    IdsB c4State ∧
    resolve trivEnv 3 (resolve trivEnv 20 c4State
        (Token.cls "SessionService") (some "r1")).1
        (Token.cls "SessionService") (some "r1") =
      ((resolve trivEnv 20 c4State (Token.cls "SessionService")
        (some "r1")).1, .ok 0) := by
  refine ⟨by decide, ?_⟩
  exact (request_scope_identity trivEnv c4State (Token.cls "SessionService")
      { useClass := some "SessionService", scope := some .request }
      "SessionService" (by decide) (by decide) (by decide) rfl rfl rfl
      (by decide)).1 20 "r1"
      (resolve trivEnv 20 c4State (Token.cls "SessionService") (some "r1")).1 0
      (by decide) 0

set_option maxRecDepth 10000 in
/-- Witness for C10 (amended) at the concrete `ManagerService` resolve. -/
theorem request_noid_caches_under_generated_id_witness :
    mapGet c10State.requestInstances (mkReqId c10State.nextReqId) = none ∧
    (mapGet ((mapGet (resolve c10Env 20 c10State
          (Token.cls "ManagerService") none).1.requestInstances
        (mkReqId c10State.nextReqId)).getD []) (Token.cls "ManagerService")
        = some 2 ∧
      (getStats c10State).activeRequests + 1 ≤
        (getStats (resolve c10Env 20 c10State
          (Token.cls "ManagerService") none).1).activeRequests ∧
      (∀ k, k ≠ mkReqId c10State.nextReqId →
        mapGet (clearRequestInstances (resolve c10Env 20 c10State
            (Token.cls "ManagerService") none).1 k).requestInstances
          (mkReqId c10State.nextReqId) =
        mapGet (resolve c10Env 20 c10State
            (Token.cls "ManagerService") none).1.requestInstances
          (mkReqId c10State.nextReqId))) := by
  refine ⟨by decide, ?_⟩
  exact request_noid_caches_under_generated_id c10Env c10State
      (Token.cls "ManagerService")
      { useClass := some "ManagerService", scope := some .request }
      "ManagerService" (by decide) (by decide) (by decide) rfl rfl rfl
      (by decide) 20
      (resolve c10Env 20 c10State (Token.cls "ManagerService") none).1 2
      (by decide)

end Injektor
